import Mathlib

/-!
Verification of the procedural dungeon generator of Sands-of-Duat
(`src/procedural/dungeon_generator.rs`, `src/procedural/room_types.rs`,
`src/procedural/room_system.rs`) against its natural-language specification.

Modelling conventions (shallow embedding of the Rust source):

* Machine integers (`u32`, `usize`) are modelled as `Nat`. The source's
  `as u32` casts of slice lengths would truncate mod 2^32, but a layout of
  that size cannot occur (it would need 2^32 rooms in memory), so ids are
  modelled as unbounded naturals.
* `f32` scalars are modelled as `ℚ`. All float arithmetic in the source
  (positions, multipliers, weights) is pure and deterministic; `ℚ` is an
  exact deterministic stand-in. `angle.cos`/`angle.sin` (used only for
  branch-room positions) are modelled by an explicit function parameter
  `cossin : Nat → Nat → ℚ × ℚ` mapping `(branch_idx, num_branches)` to the
  cosine/sine pair of `branch_idx / num_branches * TAU`; every theorem
  quantifies over it, since no claim depends on actual trigonometric values.
* Random number generators are modelled as oracle streams `Nat → Nat` with
  a cursor (`Rng`); every `rand` call consumes exactly one stream element,
  mirroring one `u64` draw per call. The seeded `ChaCha8Rng` and the
  ambient `thread_rng()` used inside `generate_room_template` are two
  distinct streams, threaded in program order. Theorems quantify over all
  streams, which covers every concrete seed; the distribution parameters
  (`gen_bool(p)` probabilities, range bounds) enter the model as the
  comparison thresholds on the drawn value.
* Rust `HashMap`s are modelled as association lists with unique keys; the
  source only performs keyed lookups and per-key pushes on them, and never
  depends on iteration order of the map for anything the claims mention.
* `(0..n).step_by(k)` panics in Rust for `k = 0`; theorems about boss
  placement therefore assume `boss_room_frequency > 0` where it matters.
-/

/-- Model of `rand` RNG state: an oracle stream of draws plus a cursor. -/
structure Rng where
  f : Nat → Nat
  i : Nat

/-- Draw one raw value from the stream, advancing the cursor. -/
def Rng.next (r : Rng) : Nat × Rng :=
  (r.f r.i, ⟨r.f, r.i + 1⟩)

/-- Model of `rng.gen::<f32>()`: a uniform draw in `[0, 1)`, realised as the
raw draw reduced mod 1000 and scaled. -/
def Rng.genUnit (r : Rng) : ℚ × Rng :=
  let p := r.next
  (((p.1 % 1000 : Nat) : ℚ) / 1000, p.2)

/-- Model of `rng.gen_bool(p)`: Bernoulli draw, true iff the unit draw
`(x % 1000) / 1000` is below the probability threshold `p`. For `p ≥ 0`
that comparison is equivalent to the natural-number comparison
`x % 1000 < ⌈1000 p⌉`, which is the form used here. -/
def Rng.genBool (r : Rng) (p : ℚ) : Bool × Rng :=
  let x := r.next
  (decide (x.1 % 1000 < ⌈p * 1000⌉₊), x.2)

/-- Model of `rng.gen_range(lo..hi)` on integers (exclusive upper bound). -/
def Rng.genRange (r : Rng) (lo hi : Nat) : Nat × Rng :=
  let p := r.next
  (lo + p.1 % (hi - lo), p.2)

/-- Model of `rng.gen_range(lo..=hi)` on integers (inclusive upper bound). -/
def Rng.genRangeIncl (r : Rng) (lo hi : Nat) : Nat × Rng :=
  let p := r.next
  (lo + p.1 % (hi - lo + 1), p.2)

/-- Model of `rng.gen_range(lo..hi)` on `f32` scalars. -/
def Rng.genRangeQ (r : Rng) (lo hi : ℚ) : ℚ × Rng :=
  let u := r.genUnit
  (lo + (hi - lo) * u.1, u.2)

/-- `RoomType` from `room_types.rs`. -/
inductive RoomType where
  | Combat
  | Elite
  | Treasure
  | Shop
  | Event
  | Rest
  | Boss
  | Secret
deriving DecidableEq, Repr

/-- `BiomeType` from `room_types.rs`. -/
inductive BiomeType where
  | Desert
  | Temple
  | Underworld
deriving DecidableEq, Repr

/-- `RoomTemplate` from `room_types.rs`; `f32` fields are modelled as `ℚ`. -/
structure RoomTemplate where
  room_type : RoomType
  biome : BiomeType
  name : String
  description : String
  min_enemies : Nat
  max_enemies : Nat
  enemy_types : List String
  reward_multiplier : ℚ
  difficulty_modifier : ℚ
  special_mechanics : List String
deriving DecidableEq, Repr

/-- `RoomId` from `dungeon_generator.rs` (`pub struct RoomId(pub u32)`). -/
structure RoomId where
  val : Nat
deriving DecidableEq, Repr

/-- `ConnectionDirection` from `dungeon_generator.rs`. -/
inductive ConnectionDirection where
  | North
  | South
  | East
  | West
deriving DecidableEq, Repr

/-- `RoomConnection` from `dungeon_generator.rs`. -/
structure RoomConnection where
  from_room : RoomId
  to_room : RoomId
  direction : ConnectionDirection
  is_locked : Bool
  unlock_condition : Option String
deriving DecidableEq, Repr

/-- `Vec2` positions, modelled as exact rational pairs. -/
abbrev Pos2 := ℚ × ℚ

/-- `DungeonRoom` from `dungeon_generator.rs`. -/
structure DungeonRoom where
  id : RoomId
  template : RoomTemplate
  position : Pos2
  depth : Nat
  is_critical_path : Bool
  connections : List RoomConnection
deriving DecidableEq, Repr

/-- `DungeonLayout` from `dungeon_generator.rs`; the two `HashMap`s are
association lists with unique keys. -/
structure DungeonLayout where
  rooms : List (RoomId × DungeonRoom)
  connections : List (RoomId × List RoomConnection)
  start_room : RoomId
  boss_rooms : List RoomId
  total_rooms : Nat
deriving DecidableEq, Repr

/-- `DungeonGenerationConfig` from `dungeon_generator.rs`. -/
structure DungeonGenerationConfig where
  total_rooms : Nat
  max_branches_per_room : Nat
  boss_room_frequency : Nat
  secret_room_chance : ℚ
  backtrack_connections : Bool
  ensure_all_rooms_reachable : Bool
deriving DecidableEq, Repr

/-- `DungeonGenerationConfig::default`. -/
def DungeonGenerationConfig.default : DungeonGenerationConfig :=
  { total_rooms := 12
    max_branches_per_room := 3
    boss_room_frequency := 4
    secret_room_chance := 15 / 100
    backtrack_connections := true
    ensure_all_rooms_reachable := true }

/-- `determine_biome_for_floor` from `dungeon_generator.rs`. -/
def determineBiomeForFloor (floor : Nat) : BiomeType :=
  if 1 ≤ floor ∧ floor ≤ 4 then BiomeType.Desert
  else if 5 ≤ floor ∧ floor ≤ 8 then BiomeType.Temple
  else if 9 ≤ floor ∧ floor ≤ 12 then BiomeType.Underworld
  else BiomeType.Underworld

/-- A flavour-variant entry used by `generate_room_template`: name,
description, enemy roster, min and max enemy counts. -/
abbrev FlavourEntry := String × String × List String × Nat × Nat

/-- `RoomTemplateGenerator::generate_room_template` from `room_types.rs`.
The `rng` argument models the `thread_rng()` the source draws from: an
entropy stream separate from the seeded generator. Each arm mirrors the
corresponding Rust match arm; `templates[rng.gen_range(0..len)]` is
modelled with `List.getD` (the index is always below the length). -/
def generateRoomTemplate (room_type : RoomType) (biome : BiomeType)
    (floor : Nat) (rng : Rng) : RoomTemplate × Rng :=
  match room_type, biome with
  | RoomType.Combat, BiomeType.Desert =>
      let templates : List FlavourEntry := [
        ("Dunas Mortais", "Escorpiões gigantes emergem das areias douradas",
         ["Desert_Scorpion", "Sand_Mummy"], 2, 4),
        ("Oásis Envenenado", "Águas contaminadas atraem criaturas perigosas",
         ["Poisonous_Snake", "Desert_Bandit"], 3, 5),
        ("Tempestade de Areia", "Visibilidade limitada, inimigos aparecem das dunas",
         ["Sand_Elemental", "Desert_Warrior"], 2, 3)]
      let d := rng.genRange 0 templates.length
      let e := templates.getD d.1 ("", "", [], 0, 0)
      ({ room_type := room_type, biome := biome
         name := e.1, description := e.2.1
         min_enemies := e.2.2.2.1 + floor / 3
         max_enemies := e.2.2.2.2 + floor / 2
         enemy_types := e.2.2.1
         reward_multiplier := 1 + (floor : ℚ) * (1 / 10)
         difficulty_modifier := 1 + (floor : ℚ) * (15 / 100)
         special_mechanics := ["Sand_Storm_Mechanic"] }, d.2)
  | RoomType.Combat, BiomeType.Temple =>
      let templates : List FlavourEntry := [
        ("Salão dos Guardiões", "Estátuas animadas protegem os segredos antigos",
         ["Stone_Guardian", "Temple_Priest"], 2, 4),
        ("Câmara dos Hieróglifos", "Símbolos nas paredes invocam maldições",
         ["Cursed_Scribe", "Hieroglyph_Specter"], 3, 5),
        ("Altar dos Sacrifícios", "Sangue antigo ainda mancha o mármore",
         ["Sacrificial_Priest", "Blood_Wraith"], 2, 3)]
      let d := rng.genRange 0 templates.length
      let e := templates.getD d.1 ("", "", [], 0, 0)
      ({ room_type := room_type, biome := biome
         name := e.1, description := e.2.1
         min_enemies := e.2.2.2.1 + floor / 3
         max_enemies := e.2.2.2.2 + floor / 2
         enemy_types := e.2.2.1
         reward_multiplier := 12 / 10 + (floor : ℚ) * (1 / 10)
         difficulty_modifier := 12 / 10 + (floor : ℚ) * (15 / 100)
         special_mechanics := ["Hieroglyph_Curse"] }, d.2)
  | RoomType.Combat, BiomeType.Underworld =>
      let templates : List FlavourEntry := [
        ("Rio dos Mortos", "Almas perdidas emergem das águas sombrias",
         ["Lost_Soul", "Ferryman_Shadow"], 3, 6),
        ("Salão do Julgamento", "Anúbis observa enquanto você luta pela vida",
         ["Judgment_Wraith", "Underworld_Guardian"], 2, 4),
        ("Cavernas do Esquecimento", "Ecos de vidas passadas assombram o ar",
         ["Memory_Phantom", "Bone_Stalker"], 4, 7)]
      let d := rng.genRange 0 templates.length
      let e := templates.getD d.1 ("", "", [], 0, 0)
      ({ room_type := room_type, biome := biome
         name := e.1, description := e.2.1
         min_enemies := e.2.2.2.1 + floor / 2
         max_enemies := e.2.2.2.2 + floor
         enemy_types := e.2.2.1
         reward_multiplier := 15 / 10 + (floor : ℚ) * (12 / 100)
         difficulty_modifier := 15 / 10 + (floor : ℚ) * (2 / 10)
         special_mechanics := ["Soul_Drain", "Shadow_Portal"] }, d.2)
  | RoomType.Elite, b =>
      let e : String × String × List String :=
        match b with
        | BiomeType.Desert =>
            ("Faraó das Areias", "Um antigo governante desperta de seu sono eterno",
             ["Sand_Pharaoh", "Royal_Guard"])
        | BiomeType.Temple =>
            ("Sumo Sacerdote", "O último guardião dos segredos divinos",
             ["High_Priest", "Temple_Champion"])
        | BiomeType.Underworld =>
            ("Lorde das Sombras", "Comandante dos exércitos de Anúbis",
             ["Shadow_Lord", "Death_Knight"])
      ({ room_type := room_type, biome := b
         name := e.1, description := e.2.1
         min_enemies := 1
         max_enemies := 2
         enemy_types := e.2.2
         reward_multiplier := 2 + (floor : ℚ) * (2 / 10)
         difficulty_modifier := 2 + (floor : ℚ) * (3 / 10)
         special_mechanics := ["Elite_Aura", "Phase_Transition"] }, rng)
  | RoomType.Treasure, b =>
      let e : String × String :=
        match b with
        | BiomeType.Desert =>
            ("Tesouro Enterrado", "Riquezas perdidas nas areias do tempo")
        | BiomeType.Temple =>
            ("Câmara do Tesouro Real", "Ouro e joias dos antigos faraós")
        | BiomeType.Underworld =>
            ("Cofre das Almas", "Tesouros pagos com vidas")
      ({ room_type := room_type, biome := b
         name := e.1, description := e.2
         min_enemies := 0
         max_enemies := 0
         enemy_types := []
         reward_multiplier := 15 / 10 + (floor : ℚ) * (1 / 10)
         difficulty_modifier := 0
         special_mechanics := ["Trapped_Chest"] }, rng)
  | RoomType.Shop, b =>
      let e : String × String :=
        match b with
        | BiomeType.Desert =>
            ("Caravana do Deserto", "Mercadores nômades com bens exóticos")
        | BiomeType.Temple =>
            ("Loja do Escriba", "Conhecimento e artefatos antigos à venda")
        | BiomeType.Underworld =>
            ("Mercador das Sombras", "Negócios feitos com almas e sangue")
      ({ room_type := room_type, biome := b
         name := e.1, description := e.2
         min_enemies := 0
         max_enemies := 0
         enemy_types := []
         reward_multiplier := 1
         difficulty_modifier := 0
         special_mechanics := ["Shop_Keeper"] }, rng)
  | RoomType.Event, b =>
      let events : List (String × String) :=
        match b with
        | BiomeType.Desert => [
            ("Oráculo do Deserto", "Uma vidente oferece visões do futuro"),
            ("Miragem Divina", "Visões dos deuses testam sua sabedoria"),
            ("Caravana Perdida", "Sobreviventes precisam de ajuda")]
        | BiomeType.Temple => [
            ("Altar de Thoth", "O deus da sabedoria oferece conhecimento"),
            ("Julgamento de Maät", "A deusa da justiça pesa seu coração"),
            ("Ritual Interrompido", "Um cerimônia antiga precisa ser completada")]
        | BiomeType.Underworld => [
            ("Julgamento de Anúbis", "O deus chacal testa sua dignidade"),
            ("Rio Styx", "Atravesse as águas dos mortos"),
            ("Balança do Coração", "Suas ações passadas são pesadas")]
      let d := rng.genRange 0 events.length
      let e := events.getD d.1 ("", "")
      ({ room_type := room_type, biome := b
         name := e.1, description := e.2
         min_enemies := 0
         max_enemies := 0
         enemy_types := []
         reward_multiplier := 1
         difficulty_modifier := 0
         special_mechanics := ["Event_Choice", "God_Interaction"] }, d.2)
  | RoomType.Rest, b =>
      let e : String × String :=
        match b with
        | BiomeType.Desert =>
            ("Oásis Sagrado", "Águas cristalinas curam corpo e alma")
        | BiomeType.Temple =>
            ("Câmara de Meditação", "Paz entre as estátuas silenciosas")
        | BiomeType.Underworld =>
            ("Refúgio das Almas", "Um raro santuário no reino sombrio")
      ({ room_type := room_type, biome := b
         name := e.1, description := e.2
         min_enemies := 0
         max_enemies := 0
         enemy_types := []
         reward_multiplier := 0
         difficulty_modifier := 0
         special_mechanics := ["Healing_Spring", "Meditation_Bonus"] }, rng)
  | RoomType.Boss, b =>
      let e : String × String × List String :=
        match b with
        | BiomeType.Desert =>
            ("Trono das Areias Eternas", "O Faraó Supremo desperta", ["Pharaoh_Boss"])
        | BiomeType.Temple =>
            ("Sanctum Sanctorum", "Set, o Deus do Caos, aguarda", ["Set_Boss"])
        | BiomeType.Underworld =>
            ("Salão do Julgamento Final", "Anúbis em pessoa te julga", ["Anubis_Boss"])
      ({ room_type := room_type, biome := b
         name := e.1, description := e.2.1
         min_enemies := 1
         max_enemies := 1
         enemy_types := e.2.2
         reward_multiplier := 5
         difficulty_modifier := 5 + (floor : ℚ) * (5 / 10)
         special_mechanics := ["Boss_Phases", "Arena_Hazards", "Divine_Powers"] }, rng)
  | RoomType.Secret, b =>
      let e : String × String :=
        match b with
        | BiomeType.Desert =>
            ("Tumba Esquecida", "Segredos enterrados nas profundezas")
        | BiomeType.Temple =>
            ("Arquivo Proibido", "Conhecimento que deveria permanecer oculto")
        | BiomeType.Underworld =>
            ("Vault das Almas Perdidas", "Tesouros de vidas esquecidas")
      let dmin := rng.genRangeIncl 0 2
      let dmax := dmin.2.genRangeIncl 2 4
      ({ room_type := room_type, biome := b
         name := e.1, description := e.2
         min_enemies := dmin.1
         max_enemies := dmax.1
         enemy_types := ["Secret_Guardian"]
         reward_multiplier := 3
         difficulty_modifier := 1
         special_mechanics := ["Hidden_Entrance", "Legendary_Loot"] }, dmax.2)

/-- Placeholder room used as the (never-reached) `List.getD` default where
the source indexes with a bounds-checked index. -/
def dummyRoom : DungeonRoom :=
  { id := ⟨0⟩
    template :=
      { room_type := RoomType.Combat, biome := BiomeType.Desert
        name := "", description := ""
        min_enemies := 0, max_enemies := 0, enemy_types := []
        reward_multiplier := 0, difficulty_modifier := 0
        special_mechanics := [] }
    position := (0, 0)
    depth := 0
    is_critical_path := false
    connections := [] }

/-- `(0..n).step_by(k)`: the multiples of `k` below `n`, in increasing
order. The source panics for `k = 0`; here `k = 0` yields `[0]` and
theorems about boss placement assume `k > 0`. -/
def rangeStepBy (n k : Nat) : List Nat :=
  (List.range n).filter (fun i => i % k = 0)

/-- The boss-room creation loop of `generate_critical_path`: one Boss room
per listed floor, ids assigned from `counter` on, threading the template
entropy stream. -/
def genBossRooms (floors : List Nat) (counter : Nat) (e : Rng) :
    List DungeonRoom × Nat × Rng :=
  match floors with
  | [] => ([], counter, e)
  | f :: rest =>
      let biome := determineBiomeForFloor f
      match generateRoomTemplate RoomType.Boss biome f e with
      | (t, e1) =>
        let room : DungeonRoom :=
          { id := ⟨counter⟩, template := t
            position := (0, (f : ℚ) * 100), depth := f
            is_critical_path := true, connections := [] }
        match genBossRooms rest (counter + 1) e1 with
        | (rooms', counter', e2) => (room :: rooms', counter', e2)

/-- The `while depth < total_rooms && insertion_index < critical_rooms.len()`
fill loop of `generate_critical_path`: inserts an 80%-Combat / 20%-Elite
room in front of any already-present room of larger depth. `s` is the
seeded stream, `e` the template entropy stream. The structural `fuel`
argument only bounds the recursion: the caller passes `total`, and since
`depth` starts at 1 and grows by one per pass while the guard requires
`depth < total`, the loop makes at most `total - 1` passes, so the fuel
never runs out and the `0` case is unreachable. -/
def fillCriticalPath (total : Nat) (fuel : Nat) (rooms : List DungeonRoom)
    (counter depth ii : Nat) (s e : Rng) :
    List DungeonRoom × Nat × Rng × Rng :=
  match fuel with
  | 0 => (rooms, counter, s, e)
  | fuel + 1 =>
    if depth < total ∧ ii < rooms.length then
      if depth < (rooms.getD ii dummyRoom).depth then
        let biome := determineBiomeForFloor depth
        match s.genBool (8 / 10) with
        | (b, s1) =>
          let rt := if b then RoomType.Combat else RoomType.Elite
          match generateRoomTemplate rt biome depth e with
          | (t, e1) =>
            let room : DungeonRoom :=
              { id := ⟨counter⟩, template := t
                position := (0, (depth : ℚ) * 100), depth := depth
                is_critical_path := true, connections := [] }
            fillCriticalPath total fuel (rooms.insertIdx ii room)
              (counter + 1) (depth + 1) (ii + 1) s1 e1
      else
        fillCriticalPath total fuel rooms counter (depth + 1) (ii + 1) s e
    else
      (rooms, counter, s, e)

/-- `DungeonGenerator::generate_critical_path`. Returns the critical-path
rooms together with the advanced streams. -/
def generateCriticalPath (config : DungeonGenerationConfig) (s e : Rng) :
    List DungeonRoom × Rng × Rng :=
  match generateRoomTemplate RoomType.Combat BiomeType.Desert 1 e with
  | (t0, e1) =>
    let start_room : DungeonRoom :=
      { id := ⟨0⟩, template := t0, position := (0, 0), depth := 0
        is_critical_path := true, connections := [] }
    let boss_floors := (rangeStepBy config.total_rooms config.boss_room_frequency).drop 1
    match genBossRooms boss_floors 1 e1 with
    | (bosses, counter, e2) =>
      match fillCriticalPath config.total_rooms config.total_rooms
        (start_room :: bosses) counter 1 1 s e2 with
      | (rooms', _, s', e') => (rooms', s', e')

/-- The weight-table walk shared by `select_branch_room_type` (and, in
shape, `select_weighted_room_type`): subtract weights until the drawn
value drops to or below zero; fall back to Combat. -/
def weightWalk (ws : List (RoomType × ℚ)) (rv : ℚ) : RoomType :=
  match ws with
  | [] => RoomType.Combat
  | (t, w) :: rest => if rv - w ≤ 0 then t else weightWalk rest (rv - w)

/-- `DungeonGenerator::select_branch_room_type`. -/
def selectBranchRoomType (parent_room : DungeonRoom) (s : Rng) :
    RoomType × Rng :=
  let weights : List (RoomType × ℚ) :=
    match parent_room.template.room_type with
    | RoomType.Combat =>
        [(RoomType.Treasure, 3 / 10), (RoomType.Shop, 15 / 100),
         (RoomType.Event, 2 / 10), (RoomType.Rest, 1 / 10),
         (RoomType.Elite, 25 / 100)]
    | RoomType.Boss =>
        [(RoomType.Treasure, 6 / 10), (RoomType.Shop, 3 / 10),
         (RoomType.Rest, 1 / 10)]
    | RoomType.Elite =>
        [(RoomType.Treasure, 5 / 10), (RoomType.Rest, 3 / 10),
         (RoomType.Shop, 2 / 10)]
    | _ =>
        [(RoomType.Combat, 5 / 10), (RoomType.Treasure, 3 / 10),
         (RoomType.Event, 2 / 10)]
  let total_weight : ℚ := (weights.map Prod.snd).sum
  match s.genUnit with
  | (u, s') => (weightWalk weights (u * total_weight), s')

/-- The inner `for branch_idx in 0..num_branches` loop of
`add_branching_rooms`, for one parent room. `bis` enumerates the branch
indices in order. -/
def genBranchList (cossin : Nat → Nat → ℚ × ℚ) (parent : DungeonRoom)
    (num : Nat) (bis : List Nat) (counter : Nat) (s e : Rng) :
    List DungeonRoom × Nat × Rng × Rng :=
  match bis with
  | [] => ([], counter, s, e)
  | bi :: rest =>
      match selectBranchRoomType parent s with
      | (ty, s1) =>
        let biome := determineBiomeForFloor parent.depth
        let cs := cossin bi num
        let pos : Pos2 :=
          (parent.position.1 + cs.1 * 150, parent.position.2 + cs.2 * 150)
        match generateRoomTemplate ty biome parent.depth e with
        | (t, e1) =>
          let room : DungeonRoom :=
            { id := ⟨counter⟩, template := t, position := pos
              depth := parent.depth, is_critical_path := false
              connections := [] }
          match genBranchList cossin parent num rest (counter + 1) s1 e1 with
          | (rooms', counter', s', e') => (room :: rooms', counter', s', e')

/-- The outer loop of `add_branching_rooms` over the critical-path rooms:
draw `num_branches ∈ [0, max_branches_per_room]`, then generate that many
branch rooms. -/
def genBranchRooms (cossin : Nat → Nat → ℚ × ℚ) (max_branches : Nat)
    (parents : List DungeonRoom) (counter : Nat) (s e : Rng) :
    List DungeonRoom × Nat × Rng × Rng :=
  match parents with
  | [] => ([], counter, s, e)
  | p :: rest =>
      match s.genRangeIncl 0 max_branches with
      | (n, s1) =>
        match genBranchList cossin p n (List.range n) counter s1 e with
        | (bs, counter1, s2, e1) =>
          match genBranchRooms cossin max_branches rest counter1 s2 e1 with
          | (rooms', counter', s', e') => (bs ++ rooms', counter', s', e')

/-- `DungeonGenerator::add_branching_rooms`: critical rooms followed by the
generated branch rooms, id counter seeded with `critical_rooms.len()`. -/
def addBranchingRooms (config : DungeonGenerationConfig)
    (cossin : Nat → Nat → ℚ × ℚ) (critical_rooms : List DungeonRoom)
    (s e : Rng) : List DungeonRoom × Rng × Rng :=
  match genBranchRooms cossin config.max_branches_per_room critical_rooms
    critical_rooms.length s e with
  | (branches, _, s', e') => (critical_rooms ++ branches, s', e')

/-- Keyed lookup in the connection map (`HashMap::get`). -/
def mapGet (m : List (RoomId × List RoomConnection)) (k : RoomId) :
    Option (List RoomConnection) :=
  match m with
  | [] => none
  | (k', v) :: rest => if k' = k then some v else mapGet rest k

/-- `connections.entry(k).or_insert_with(Vec::new).push(c)`. -/
def mapPush (m : List (RoomId × List RoomConnection)) (k : RoomId)
    (c : RoomConnection) : List (RoomId × List RoomConnection) :=
  match m with
  | [] => [(k, [c])]
  | (k', v) :: rest =>
      if k' = k then (k', v ++ [c]) :: rest else (k', v) :: mapPush rest k c

/-- The outgoing-connection list of a room (empty when the key is absent),
matching how the source reads the map. -/
def connsAt (m : List (RoomId × List RoomConnection)) (k : RoomId) :
    List RoomConnection :=
  (mapGet m k).getD []

/-- `f32::abs`, written out to keep reduction elementary. -/
def absQ (q : ℚ) : ℚ :=
  if q < 0 then -q else q

/-- `DungeonGenerator::calculate_connection_direction`. -/
def calculateConnectionDirection (a b : Pos2) : ConnectionDirection :=
  let dx := b.1 - a.1
  let dy := b.2 - a.2
  if absQ dx < absQ dy then
    (if 0 < dy then ConnectionDirection.North else ConnectionDirection.South)
  else
    (if 0 < dx then ConnectionDirection.East else ConnectionDirection.West)

/-- `DungeonGenerator::opposite_direction`. -/
def oppositeDirection (dir : ConnectionDirection) : ConnectionDirection :=
  match dir with
  | ConnectionDirection.North => ConnectionDirection.South
  | ConnectionDirection.South => ConnectionDirection.North
  | ConnectionDirection.East => ConnectionDirection.West
  | ConnectionDirection.West => ConnectionDirection.East

/-- Squared distance between two positions. The source compares `f32`
distances; comparing squared distances is order-equivalent (square root is
monotone), and the comparator is in fact never applied to more than one
candidate because critical-path rooms have pairwise distinct depths. -/
def sqDist (a b : Pos2) : ℚ :=
  (a.1 - b.1) ^ 2 + (a.2 - b.2) ^ 2

/-- `Iterator::min_by` over rooms ordered by distance to `branch` (first
minimum wins on ties, as in Rust's `min_by`). -/
def findMinByDist (branch : DungeonRoom) (acc : Option DungeonRoom)
    (l : List DungeonRoom) : Option DungeonRoom :=
  match l with
  | [] => acc
  | r :: rest =>
      match acc with
      | none => findMinByDist branch (some r) rest
      | some a =>
          findMinByDist branch
            (some (if sqDist branch.position r.position <
                      sqDist branch.position a.position then r else a)) rest

/-- `DungeonGenerator::find_nearest_critical_room`: restrict to
critical-path rooms of the branch's own depth, take the distance minimum. -/
def findNearestCriticalRoom (branch : DungeonRoom)
    (critical_rooms : List DungeonRoom) : Option DungeonRoom :=
  findMinByDist branch none
    (critical_rooms.filter (fun r => decide (r.depth = branch.depth)))

/-- `DungeonGenerator::should_lock_branch_connection`. -/
def shouldLockBranchConnection (room : DungeonRoom) (s : Rng) : Bool × Rng :=
  match room.template.room_type with
  | RoomType.Treasure => s.genBool (3 / 10)
  | RoomType.Elite => s.genBool (1 / 10)
  | RoomType.Shop => (false, s)
  | RoomType.Rest => (false, s)
  | _ => s.genBool (1 / 10)

/-- The critical-path segment of `generate_connections`: one forward edge
per consecutive pair (`windows(2)`), plus the reverse edge when
`backtrack_connections` is set. -/
def addChainConnections (backtrack : Bool)
    (pairs : List (DungeonRoom × DungeonRoom))
    (m : List (RoomId × List RoomConnection)) :
    List (RoomId × List RoomConnection) :=
  match pairs with
  | [] => m
  | (a, b) :: rest =>
      let dir := calculateConnectionDirection a.position b.position
      let conn : RoomConnection :=
        { from_room := a.id, to_room := b.id, direction := dir
          is_locked := false, unlock_condition := none }
      let m1 := mapPush m a.id conn
      let m2 :=
        if backtrack then
          mapPush m1 b.id
            { from_room := b.id, to_room := a.id
              direction := oppositeDirection dir
              is_locked := false, unlock_condition := none }
        else m1
      addChainConnections backtrack rest m2

/-- The branch segment of `generate_connections`: each branch room is wired
to its nearest same-depth critical room. Note the source calls
`should_lock_branch_connection` twice — once for `is_locked` and once,
with a fresh draw, for `unlock_condition`. -/
def addBranchConnections (critical_rooms : List DungeonRoom)
    (branches : List DungeonRoom)
    (m : List (RoomId × List RoomConnection)) (s : Rng) :
    List (RoomId × List RoomConnection) × Rng :=
  match branches with
  | [] => (m, s)
  | br :: rest =>
      match findNearestCriticalRoom br critical_rooms with
      | none => addBranchConnections critical_rooms rest m s
      | some nearest =>
          let dir := calculateConnectionDirection nearest.position br.position
          match shouldLockBranchConnection br s with
          | (locked, s1) =>
            match shouldLockBranchConnection br s1 with
            | (locked2, s2) =>
              let conn : RoomConnection :=
                { from_room := nearest.id, to_room := br.id, direction := dir
                  is_locked := locked
                  unlock_condition :=
                    if locked2 then some "defeat_room_enemies" else none }
              let m1 := mapPush m nearest.id conn
              let m2 := mapPush m1 br.id
                { from_room := br.id, to_room := nearest.id
                  direction := oppositeDirection dir
                  is_locked := false, unlock_condition := none }
              addBranchConnections critical_rooms rest m2 s2

/-- `DungeonGenerator::generate_connections`. -/
def generateConnections (rooms : List DungeonRoom)
    (config : DungeonGenerationConfig) (s : Rng) :
    List (RoomId × List RoomConnection) × Rng :=
  let critical_rooms := rooms.filter (fun r => r.is_critical_path)
  let m := addChainConnections config.backtrack_connections
    (critical_rooms.zip critical_rooms.tail) []
  let branch_rooms := rooms.filter (fun r => !r.is_critical_path)
  addBranchConnections critical_rooms branch_rooms m s

/-- The `for _ in 0..secret_rooms_count` loop of `add_secret_rooms`. -/
def addSecretLoop (count counter : Nat) (rooms : List DungeonRoom)
    (m : List (RoomId × List RoomConnection)) (s e : Rng) :
    List DungeonRoom × List (RoomId × List RoomConnection) × Rng × Rng :=
  match count with
  | 0 => (rooms, m, s, e)
  | c + 1 =>
      if rooms.isEmpty then
        -- `rooms.choose(rng)` returns `None` on an empty slice; the source
        -- then adds nothing for this iteration.
        addSecretLoop c counter rooms m s e
      else
        match s.genRange 0 rooms.length with
        | (pick, s1) =>
          let parent := rooms.getD pick dummyRoom
          let biome := determineBiomeForFloor parent.depth
          match s1.genRangeQ (-200) 200 with
          | (dx, s2) =>
            match s2.genRangeQ (-200) 200 with
            | (dy, s3) =>
              let pos : Pos2 :=
                (parent.position.1 + dx, parent.position.2 + dy)
              match generateRoomTemplate RoomType.Secret biome parent.depth e with
              | (t, e1) =>
                let secret : DungeonRoom :=
                  { id := ⟨counter⟩, template := t, position := pos
                    depth := parent.depth, is_critical_path := false
                    connections := [] }
                let conn : RoomConnection :=
                  { from_room := parent.id, to_room := ⟨counter⟩
                    direction := calculateConnectionDirection parent.position pos
                    is_locked := true
                    unlock_condition := some "find_secret_switch" }
                addSecretLoop c (counter + 1) (rooms ++ [secret])
                  (mapPush m parent.id conn) s3 e1

/-- `DungeonGenerator::add_secret_rooms`. The `as u32` cast of
`len as f32 * secret_room_chance` is the floor (clamped at zero). -/
def addSecretRooms (rooms : List DungeonRoom)
    (m : List (RoomId × List RoomConnection))
    (config : DungeonGenerationConfig) (s e : Rng) :
    List DungeonRoom × List (RoomId × List RoomConnection) × Rng × Rng :=
  let secret_rooms_count : Nat :=
    ⌊(rooms.length : ℚ) * config.secret_room_chance⌋₊
  addSecretLoop secret_rooms_count rooms.length rooms m s e

/-- `DungeonGenerator::validate_and_fix_layout`. The connectivity check it
runs is advisory (logged only) and does not alter the returned layout, so
it does not appear here. -/
def validateAndFixLayout (rooms : List DungeonRoom)
    (m : List (RoomId × List RoomConnection))
    (config : DungeonGenerationConfig) : DungeonLayout :=
  let start_room :=
    ((rooms.find? (fun r => decide (r.depth = 0))).map (fun r => r.id)).getD ⟨0⟩
  let boss_rooms :=
    (rooms.filter (fun r => decide (r.template.room_type = RoomType.Boss))).map
      (fun r => r.id)
  { rooms := rooms.map (fun r => (r.id, r))
    connections := m
    start_room := start_room
    boss_rooms := boss_rooms
    total_rooms := config.total_rooms }

/-- `DungeonGenerator::generate_dungeon`, parametrised by the `cossin`
model of the branch-angle trigonometry, the seeded stream `s` (the
`ChaCha8Rng` seeded from the 64-bit seed) and the ambient entropy stream
`e` (the `thread_rng()` consumed inside `generate_room_template`). -/
def generateDungeon (config : DungeonGenerationConfig)
    (cossin : Nat → Nat → ℚ × ℚ) (s e : Rng) : DungeonLayout :=
  match generateCriticalPath config s e with
  | (critical_path, s1, e1) =>
    match addBranchingRooms config cossin critical_path s1 e1 with
    | (all_rooms, s2, e2) =>
      match generateConnections all_rooms config s2 with
      | (connections, s3) =>
        match addSecretRooms all_rooms connections config s3 e2 with
        | (final_rooms, final_connections, _, _) =>
          validateAndFixLayout final_rooms final_connections config

/-- One dequeue step of the source's BFS loops: scan the successors of `q`
in order, enqueueing and marking each one not yet visited. Returns the new
queue and visited list. -/
def bfsStep (succ : RoomId → List RoomId) (q : RoomId)
    (qs visited : List RoomId) : List RoomId × List RoomId :=
  (succ q).foldl
    (fun p w => if w ∈ p.2 then p else (p.1 ++ [w], p.2 ++ [w]))
    (qs, visited)

/-- The BFS loop of `validate_connectivity`, fuel-indexed. The fuel passed
by the callers provably exceeds the number of dequeue steps, so the `0`
case never fires there. -/
def bfsAux (succ : RoomId → List RoomId) :
    Nat → List RoomId → List RoomId → List RoomId
  | 0, _, visited => visited
  | _ + 1, [], visited => visited
  | fuel + 1, q :: qs, visited =>
      let st := bfsStep succ q qs visited
      bfsAux succ fuel st.1 st.2

/-- The BFS loop of `has_path_between`, fuel-indexed, with the early
return on dequeueing the target. -/
def hasPathAux (succ : RoomId → List RoomId) (tgt : RoomId) :
    Nat → List RoomId → List RoomId → Bool
  | 0, _, _ => false
  | _ + 1, [], _ => false
  | fuel + 1, q :: qs, visited =>
      if q = tgt then true
      else
        let st := bfsStep succ q qs visited
        hasPathAux succ tgt fuel st.1 st.2

/-- Every `to_room` occurring anywhere in a connection map. -/
def allTargets (m : List (RoomId × List RoomConnection)) : List RoomId :=
  m.flatMap (fun p => p.2.map (fun c => c.to_room))

/-- Fuel that provably outlasts both BFS loops on a given layout: the BFS
visited set only ever contains the start room and connection targets, and
each dequeue is paid for by one unit of fuel. -/
def bfsFuel (layout : DungeonLayout) : Nat :=
  1 + (allTargets layout.connections).length

/-- Successor function used by `validate_connectivity`: targets of the
unlocked outgoing connections. -/
def succUnlocked (m : List (RoomId × List RoomConnection)) (k : RoomId) :
    List RoomId :=
  ((connsAt m k).filter (fun c => !c.is_locked)).map (fun c => c.to_room)

/-- Successor function used by `has_path_between`: targets of all outgoing
connections, locked or not. -/
def succAll (m : List (RoomId × List RoomConnection)) (k : RoomId) :
    List RoomId :=
  (connsAt m k).map (fun c => c.to_room)

/-- `DungeonValidator::validate_connectivity`. -/
def validateConnectivity (layout : DungeonLayout) : Bool :=
  let visited := bfsAux (succUnlocked layout.connections) (bfsFuel layout)
    [layout.start_room] [layout.start_room]
  let allC := layout.connections.flatMap (fun p => p.2)
  let immediately_accessible :=
    (layout.rooms.map Prod.snd).countP (fun room =>
      allC.any (fun c => decide (c.to_room = room.id) && !c.is_locked) ||
        decide (room.id = layout.start_room))
  decide (immediately_accessible ≤ visited.length)

/-- `DungeonValidator::has_path_between`. -/
def hasPathBetween (layout : DungeonLayout) (start tgt : RoomId) : Bool :=
  hasPathAux (succAll layout.connections) tgt (bfsFuel layout) [start] [start]

/-- `DungeonValidator::validate_critical_path`. -/
def validateCriticalPath (layout : DungeonLayout) : Bool :=
  layout.boss_rooms.all (fun b => hasPathBetween layout layout.start_room b)

/-- `RoomType::get_weight_by_floor` from `room_types.rs`. -/
def RoomType.getWeightByFloor (t : RoomType) (floor : Nat) : ℚ :=
  match t with
  | RoomType.Combat =>
      if 1 ≤ floor ∧ floor ≤ 3 then 6 / 10
      else if 4 ≤ floor ∧ floor ≤ 7 then 5 / 10
      else if 8 ≤ floor ∧ floor ≤ 10 then 4 / 10
      else 3 / 10
  | RoomType.Elite =>
      if 1 ≤ floor ∧ floor ≤ 2 then 0
      else if 3 ≤ floor ∧ floor ≤ 5 then 15 / 100
      else if 6 ≤ floor ∧ floor ≤ 9 then 25 / 100
      else 3 / 10
  | RoomType.Treasure =>
      if 1 ≤ floor ∧ floor ≤ 3 then 2 / 10
      else if 4 ≤ floor ∧ floor ≤ 7 then 15 / 100
      else 1 / 10
  | RoomType.Shop =>
      if 1 ≤ floor ∧ floor ≤ 2 then 5 / 100
      else if 3 ≤ floor ∧ floor ≤ 6 then 1 / 10
      else 15 / 100
  | RoomType.Event => 1 / 10
  | RoomType.Rest =>
      if 1 ≤ floor ∧ floor ≤ 3 then 5 / 100
      else if 4 ≤ floor ∧ floor ≤ 6 then 1 / 10
      else 15 / 100
  | RoomType.Boss => 0
  | RoomType.Secret => 2 / 100

/-- The weight table built in `generate_next_room` (`room_system.rs`),
as an association list in the source's insertion order. -/
def buildRoomWeights (floor : Nat) : List (RoomType × ℚ) :=
  [(RoomType.Combat, RoomType.Combat.getWeightByFloor floor),
   (RoomType.Elite, RoomType.Elite.getWeightByFloor floor),
   (RoomType.Treasure, RoomType.Treasure.getWeightByFloor floor),
   (RoomType.Shop, RoomType.Shop.getWeightByFloor floor),
   (RoomType.Event, RoomType.Event.getWeightByFloor floor),
   (RoomType.Rest, RoomType.Rest.getWeightByFloor floor),
   (RoomType.Secret, RoomType.Secret.getWeightByFloor floor)]

/-- `weights.get_mut(k)` / `weights.entry(k).and_modify(...)` followed by
`*w *= factor`: scale the entry if the key is present, otherwise leave the
table unchanged. -/
def modifyWeight (w : List (RoomType × ℚ)) (k : RoomType) (factor : ℚ) :
    List (RoomType × ℚ) :=
  w.map (fun p => if p.1 = k then (p.1, p.2 * factor) else p)

/-- Weight of a room type in the table, if present. -/
def lookupWeight (w : List (RoomType × ℚ)) (k : RoomType) : Option ℚ :=
  match w with
  | [] => none
  | p :: rest => if p.1 = k then some p.2 else lookupWeight rest k

/-- `apply_history_adjustments` from `room_system.rs`: on the last two
history entries, halve the weight of each repeated type, then apply the
variety boosts — note the `[Elite, _]` pattern keys on the second-to-last
entry. -/
def applyHistoryAdjustments (weights : List (RoomType × ℚ))
    (history : List RoomType) : List (RoomType × ℚ) :=
  if 2 ≤ history.length then
    let last_two := history.drop (history.length - 2)
    let w1 := last_two.foldl (fun w t => modifyWeight w t (1 / 2)) weights
    match last_two with
    | [RoomType.Combat, RoomType.Combat] =>
        modifyWeight (modifyWeight w1 RoomType.Treasure (3 / 2))
          RoomType.Event (13 / 10)
    | [RoomType.Elite, _] => modifyWeight w1 RoomType.Rest 2
    | _ => w1
  else weights

attribute [local semireducible] Rat.mul Rat.add Rat.sub Rat.inv

/-- All connections stored anywhere in a connection map. -/
def allConns (m : List (RoomId × List RoomConnection)) : List RoomConnection :=
  m.flatMap (fun p => p.2)

/-- One directed step along a stored connection, regardless of its
`is_locked` flag. -/
def stepRel (m : List (RoomId × List RoomConnection)) (a b : RoomId) : Prop :=
  b ∈ succAll m a

/-- The specification's "there exists a directed path from `start` to the
room following connections regardless of their `is_locked` flag": the
reflexive-transitive closure of single connection steps. -/
def Reaches (m : List (RoomId × List RoomConnection)) : RoomId → RoomId → Prop :=
  Relation.ReflTransGen (stepRel m)

/-- A constant oracle stream, for concrete evaluations. -/
def constStream (v : Nat) : Rng := ⟨fun _ => v, 0⟩

/-- A concrete trigonometry model (`cos θ = 1`, `sin θ = 0`), for concrete
evaluations. -/
def csUnit : Nat → Nat → ℚ × ℚ := fun _ _ => (1, 0)

/-- The spec's test scenario config: `{total_rooms:12,
max_branches_per_room:0, boss_room_frequency:4, secret_room_chance:0.0,
backtrack_connections:true}`. -/
def cfgScenario : DungeonGenerationConfig :=
  { total_rooms := 12, max_branches_per_room := 0, boss_room_frequency := 4
    secret_room_chance := 0, backtrack_connections := true
    ensure_all_rooms_reachable := true }

/-- A minimal config (a single critical-path room, no branches or
secrets) used to exhibit template nondeterminism. -/
def cfgOneRoom : DungeonGenerationConfig :=
  { total_rooms := 1, max_branches_per_room := 0, boss_room_frequency := 4
    secret_room_chance := 0, backtrack_connections := true
    ensure_all_rooms_reachable := true }

/-- A config with one critical-path room and up to one branch, used to
exhibit the double `should_lock_branch_connection` draw. -/
def cfgOneBranch : DungeonGenerationConfig :=
  { total_rooms := 1, max_branches_per_room := 1, boss_room_frequency := 4
    secret_room_chance := 0, backtrack_connections := false
    ensure_all_rooms_reachable := true }

/-- The degenerate config of the error-handling claim: `total_rooms = 0`. -/
def cfgZeroRooms : DungeonGenerationConfig :=
  { total_rooms := 0, max_branches_per_room := 0, boss_room_frequency := 4
    secret_room_chance := 0, backtrack_connections := true
    ensure_all_rooms_reachable := true }

/-- A seeded-stream valuation under which `cfgOneBranch` produces one
Treasure branch whose lock draw answers `true` and whose (separate)
unlock-condition draw answers `false`. -/
def lockStream : Rng :=
  ⟨fun i => if i = 0 then 1 else if i = 3 then 500 else 0, 0⟩

/-- An unlocked northbound chain connection, used to spell out evaluated
connection maps in the scenario lemmas. -/
def chainF (a b : Nat) : RoomConnection :=
  { from_room := ⟨a⟩, to_room := ⟨b⟩, direction := ConnectionDirection.North
    is_locked := false, unlock_condition := none }

/-- An unlocked southbound backtrack connection. -/
def chainB (a b : Nat) : RoomConnection :=
  { from_room := ⟨a⟩, to_room := ⟨b⟩, direction := ConnectionDirection.South
    is_locked := false, unlock_condition := none }

/-- The connection map `generate_connections` produces for the 9-room
critical path shared by the default config and the spec's scenario config
(total_rooms 12, boss frequency 4): a doubly-linked chain in list order
0, 3, 4, 5, 1, 6, 7, 8, 2. -/
def chainConns12 : List (RoomId × List RoomConnection) :=
  [(⟨0⟩, [chainF 0 3]),
   (⟨3⟩, [chainB 3 0, chainF 3 4]),
   (⟨4⟩, [chainB 4 3, chainF 4 5]),
   (⟨5⟩, [chainB 5 4, chainF 5 1]),
   (⟨1⟩, [chainB 1 5, chainF 1 6]),
   (⟨6⟩, [chainB 6 1, chainF 6 7]),
   (⟨7⟩, [chainB 7 6, chainF 7 8]),
   (⟨8⟩, [chainB 8 7, chainF 8 2]),
   (⟨2⟩, [chainB 2 8])]

/-- The nine critical-path rooms generated for `total_rooms = 12`,
`boss_room_frequency = 4` (any seed): depths 0..8 in order, bosses with
ids 1 and 2 at depths 4 and 8, ids assigned in creation order. The
template arguments stand for the entropy-dependent templates. -/
def rooms12 (t0 t1 t2 t3 t4 t5 t6 t7 t8 : RoomTemplate) : List DungeonRoom :=
  [⟨⟨0⟩, t0, (0, 0), 0, true, []⟩,
   ⟨⟨3⟩, t3, (0, 100), 1, true, []⟩,
   ⟨⟨4⟩, t4, (0, 200), 2, true, []⟩,
   ⟨⟨5⟩, t5, (0, 300), 3, true, []⟩,
   ⟨⟨1⟩, t1, (0, 400), 4, true, []⟩,
   ⟨⟨6⟩, t6, (0, 500), 5, true, []⟩,
   ⟨⟨7⟩, t7, (0, 600), 6, true, []⟩,
   ⟨⟨8⟩, t8, (0, 700), 7, true, []⟩,
   ⟨⟨2⟩, t2, (0, 800), 8, true, []⟩]

/-- The key/room association list `validate_and_fix_layout` builds from
`rooms12`. -/
def roomPairs12 (t0 t1 t2 t3 t4 t5 t6 t7 t8 : RoomTemplate) :
    List (RoomId × DungeonRoom) :=
  [(⟨0⟩, ⟨⟨0⟩, t0, (0, 0), 0, true, []⟩),
   (⟨3⟩, ⟨⟨3⟩, t3, (0, 100), 1, true, []⟩),
   (⟨4⟩, ⟨⟨4⟩, t4, (0, 200), 2, true, []⟩),
   (⟨5⟩, ⟨⟨5⟩, t5, (0, 300), 3, true, []⟩),
   (⟨1⟩, ⟨⟨1⟩, t1, (0, 400), 4, true, []⟩),
   (⟨6⟩, ⟨⟨6⟩, t6, (0, 500), 5, true, []⟩),
   (⟨7⟩, ⟨⟨7⟩, t7, (0, 600), 6, true, []⟩),
   (⟨8⟩, ⟨⟨8⟩, t8, (0, 700), 7, true, []⟩),
   (⟨2⟩, ⟨⟨2⟩, t2, (0, 800), 8, true, []⟩)]

/-- The secret room one iteration of `add_secret_rooms` builds from the
chosen parent room, the drawn template `t`, the fresh id `counter` and
the drawn offsets. -/
def secretRoom (parent : DungeonRoom) (t : RoomTemplate) (counter : Nat)
    (dx dy : ℚ) : DungeonRoom :=
  { id := ⟨counter⟩, template := t
    position := (parent.position.1 + dx, parent.position.2 + dy)
    depth := parent.depth, is_critical_path := false, connections := [] }

/-- The locked parent-to-secret connection the same iteration stores. -/
def secretConn (parent : DungeonRoom) (counter : Nat)
    (dx dy : ℚ) : RoomConnection :=
  { from_room := parent.id, to_room := ⟨counter⟩
    direction := calculateConnectionDirection parent.position
      (parent.position.1 + dx, parent.position.2 + dy)
    is_locked := true, unlock_condition := some "find_secret_switch" }

/-- The start room built by `generate_critical_path` (id 0, depth 0,
origin position, on the critical path), parametrised by the template it
drew. -/
def startRoom (t : RoomTemplate) : DungeonRoom :=
  { id := ⟨0⟩, template := t, position := (0, 0), depth := 0
    is_critical_path := true, connections := [] }

/-- Every arm of the template catalogue stores the requested room type in
the `room_type` field. -/
theorem generateRoomTemplate_room_type (t : RoomType) (b : BiomeType)
    (f : Nat) (rng : Rng) : ((generateRoomTemplate t b f rng).1).room_type = t := by
  cases t <;> cases b <;> rfl

/-- Every arm of the template catalogue stores the requested biome in the
`biome` field. -/
theorem generateRoomTemplate_biome (t : RoomType) (b : BiomeType)
    (f : Nat) (rng : Rng) : ((generateRoomTemplate t b f rng).1).biome = b := by
  cases t <;> cases b <;> rfl

/-- A filler room of the critical path (80% Combat / 20% Elite) is never a
Boss or Secret room, whichever way the draw goes. -/
theorem generateRoomTemplate_ite_ct (c : Bool) (b : BiomeType) (f : Nat)
    (rng : Rng) :
    ((generateRoomTemplate (if c then RoomType.Combat else RoomType.Elite)
        b f rng).1).room_type ≠ RoomType.Boss ∧
    ((generateRoomTemplate (if c then RoomType.Combat else RoomType.Elite)
        b f rng).1).room_type ≠ RoomType.Secret := by
  cases c <;> simp [generateRoomTemplate_room_type]

/-- `validate_connectivity` spelt out: the immediately-accessible count
must not exceed the number of rooms the unlocked BFS visits. -/
theorem validateConnectivity_eq (L : DungeonLayout) :
    validateConnectivity L =
      decide (((L.rooms.map Prod.snd).countP (fun room =>
          (L.connections.flatMap (fun p => p.2)).any (fun c =>
            decide (c.to_room = room.id) && !c.is_locked) ||
          decide (room.id = L.start_room))) ≤
        (bfsAux (succUnlocked L.connections) (bfsFuel L)
          [L.start_room] [L.start_room]).length) := rfl

/-- Shape of the critical path for `total_rooms = 12`,
`boss_room_frequency = 4` (the default and the scenario config), for
every seed: nine rooms at depths 0..8, with Boss rooms (ids 1 and 2) at
depths 4 and 8 only — the boss floor list `(0..12).step_by(4).skip(1)`
is `[4, 8]`, and the fill loop stops at depth 8. -/
theorem criticalPath_12_4 (cfg : DungeonGenerationConfig)
    (h1 : cfg.total_rooms = 12) (h2 : cfg.boss_room_frequency = 4) (s e : Rng) :
    ∃ (t0 t1 t2 t3 t4 t5 t6 t7 t8 : RoomTemplate) (s' e' : Rng),
      generateCriticalPath cfg s e =
        (rooms12 t0 t1 t2 t3 t4 t5 t6 t7 t8, s', e') ∧
      t0.room_type = RoomType.Combat ∧
      t1.room_type = RoomType.Boss ∧ t2.room_type = RoomType.Boss ∧
      (t3.room_type ≠ RoomType.Boss ∧ t3.room_type ≠ RoomType.Secret) ∧
      (t4.room_type ≠ RoomType.Boss ∧ t4.room_type ≠ RoomType.Secret) ∧
      (t5.room_type ≠ RoomType.Boss ∧ t5.room_type ≠ RoomType.Secret) ∧
      (t6.room_type ≠ RoomType.Boss ∧ t6.room_type ≠ RoomType.Secret) ∧
      (t7.room_type ≠ RoomType.Boss ∧ t7.room_type ≠ RoomType.Secret) ∧
      (t8.room_type ≠ RoomType.Boss ∧ t8.room_type ≠ RoomType.Secret) := by
  have hx : generateCriticalPath cfg s e = generateCriticalPath cfg s e := rfl
  conv at hx =>
    rhs
    simp [generateCriticalPath, h1, h2, rangeStepBy, genBossRooms,
      fillCriticalPath, List.insertIdx_succ_cons, List.insertIdx_zero,
      dummyRoom]
  exact ⟨_, _, _, _, _, _, _, _, _, _, _, hx,
    generateRoomTemplate_room_type _ _ _ _,
    generateRoomTemplate_room_type _ _ _ _,
    generateRoomTemplate_room_type _ _ _ _,
    generateRoomTemplate_ite_ct _ _ _ _,
    generateRoomTemplate_ite_ct _ _ _ _,
    generateRoomTemplate_ite_ct _ _ _ _,
    generateRoomTemplate_ite_ct _ _ _ _,
    generateRoomTemplate_ite_ct _ _ _ _,
    generateRoomTemplate_ite_ct _ _ _ _⟩

/-- With `max_branches_per_room = 0` the branch loop adds no rooms and
only draws one `gen_range` value per critical room. -/
theorem genBranchRooms_zero (cossin : Nat → Nat → ℚ × ℚ)
    (parents : List DungeonRoom) : ∀ (counter : Nat) (s e : Rng),
    genBranchRooms cossin 0 parents counter s e =
      ([], counter, ⟨s.f, s.i + parents.length⟩, e) := by
  induction parents with
  | nil => intro counter s e; rfl
  | cons p rest ih =>
      intro counter s e
      simp [genBranchRooms, genBranchList, Rng.genRangeIncl, Rng.next,
        Nat.mod_one, ih counter ⟨s.f, s.i + 1⟩ e, Nat.add_assoc,
        Nat.add_comm 1 rest.length]

/-- `add_branching_rooms` is the identity on the room list when the config
allows no branches. -/
theorem addBranchingRooms_zero (cfg : DungeonGenerationConfig)
    (h : cfg.max_branches_per_room = 0) (cossin : Nat → Nat → ℚ × ℚ)
    (rooms : List DungeonRoom) (s e : Rng) :
    addBranchingRooms cfg cossin rooms s e =
      (rooms, ⟨s.f, s.i + rooms.length⟩, e) := by
  simp [addBranchingRooms, h, genBranchRooms_zero]

/-- `add_secret_rooms` is the identity when `secret_room_chance = 0`. -/
theorem addSecretRooms_zero (cfg : DungeonGenerationConfig)
    (h : cfg.secret_room_chance = 0) (rooms : List DungeonRoom)
    (m : List (RoomId × List RoomConnection)) (s e : Rng) :
    addSecretRooms rooms m cfg s e = (rooms, m, s, e) := by
  simp [addSecretRooms, h, addSecretLoop]

/-- For configs without branches or secret rooms, `generate_dungeon` is
just critical path plus chain connections plus finalisation. -/
theorem generateDungeon_simple (cfg : DungeonGenerationConfig)
    (hb : cfg.max_branches_per_room = 0) (hc : cfg.secret_room_chance = 0)
    (cossin : Nat → Nat → ℚ × ℚ) (s e : Rng) :
    generateDungeon cfg cossin s e =
      validateAndFixLayout (generateCriticalPath cfg s e).1
        (generateConnections (generateCriticalPath cfg s e).1 cfg
          ⟨(generateCriticalPath cfg s e).2.1.f,
           (generateCriticalPath cfg s e).2.1.i +
             (generateCriticalPath cfg s e).1.length⟩).1 cfg := by
  simp only [generateDungeon]
  rcases hcp : generateCriticalPath cfg s e with ⟨cp, s1, e1⟩
  rw [addBranchingRooms_zero cfg hb]
  rcases hgc : generateConnections cp cfg ⟨s1.f, s1.i + cp.length⟩ with ⟨m, s3⟩
  rw [addSecretRooms_zero cfg hc]

/-- `generate_connections` on the 12/4 critical path (no branch rooms)
produces the doubly-linked chain map and leaves the seeded stream
untouched, for any backtracking config. -/
theorem generateConnections_rooms12 (cfg : DungeonGenerationConfig)
    (hb : cfg.backtrack_connections = true)
    (t0 t1 t2 t3 t4 t5 t6 t7 t8 : RoomTemplate) (S : Rng) :
    generateConnections (rooms12 t0 t1 t2 t3 t4 t5 t6 t7 t8) cfg S =
      (chainConns12, S) := by
  norm_num [rooms12, generateConnections, addChainConnections,
    addBranchConnections, mapPush, calculateConnectionDirection, absQ,
    oppositeDirection, hb, chainConns12, chainF, chainB]

/-- Finalising the 12/4 critical path: rooms keyed by id, start room id 0,
boss rooms ids 1 and 2. -/
theorem validateAndFixLayout_rooms12 (cfg : DungeonGenerationConfig)
    (m : List (RoomId × List RoomConnection))
    (t0 t1 t2 t3 t4 t5 t6 t7 t8 : RoomTemplate)
    (h0 : t0.room_type = RoomType.Combat)
    (h1 : t1.room_type = RoomType.Boss) (h2 : t2.room_type = RoomType.Boss)
    (h3 : t3.room_type ≠ RoomType.Boss) (h4 : t4.room_type ≠ RoomType.Boss)
    (h5 : t5.room_type ≠ RoomType.Boss) (h6 : t6.room_type ≠ RoomType.Boss)
    (h7 : t7.room_type ≠ RoomType.Boss) (h8 : t8.room_type ≠ RoomType.Boss) :
    validateAndFixLayout (rooms12 t0 t1 t2 t3 t4 t5 t6 t7 t8) m cfg =
      { rooms := roomPairs12 t0 t1 t2 t3 t4 t5 t6 t7 t8
        connections := m
        start_room := ⟨0⟩
        boss_rooms := [⟨1⟩, ⟨2⟩]
        total_rooms := cfg.total_rooms } := by
  simp [validateAndFixLayout, rooms12, roomPairs12, h0, h1, h2, h3, h4,
    h5, h6, h7, h8]

/-- The BFS fuel for any layout whose connection map is the 12/4 chain. -/
theorem bfsFuel_chain12 (rs : List (RoomId × DungeonRoom))
    (st : RoomId) (bs : List RoomId) (tr : Nat) :
    bfsFuel ⟨rs, chainConns12, st, bs, tr⟩ = 17 := by
  simp [bfsFuel, allTargets, chainConns12, chainF, chainB]

/-- The unlocked BFS over the 12/4 chain visits all nine rooms. -/
theorem bfsChain12 : bfsAux (succUnlocked chainConns12) 17 [⟨0⟩] [⟨0⟩] =
    [⟨0⟩, ⟨3⟩, ⟨4⟩, ⟨5⟩, ⟨1⟩, ⟨6⟩, ⟨7⟩, ⟨8⟩, ⟨2⟩] := by
  simp [bfsAux, bfsStep, succUnlocked, connsAt, mapGet, chainConns12,
    chainF, chainB]

/-- The unrestricted BFS over the 12/4 chain finds the depth-4 boss. -/
theorem hasPathChain12_boss1 :
    hasPathAux (succAll chainConns12) ⟨1⟩ 17 [⟨0⟩] [⟨0⟩] = true := by
  simp [hasPathAux, bfsStep, succAll, connsAt, mapGet, chainConns12,
    chainF, chainB]

/-- The unrestricted BFS over the 12/4 chain finds the depth-8 boss. -/
theorem hasPathChain12_boss2 :
    hasPathAux (succAll chainConns12) ⟨2⟩ 17 [⟨0⟩] [⟨0⟩] = true := by
  simp [hasPathAux, bfsStep, succAll, connsAt, mapGet, chainConns12,
    chainF, chainB]

/-- C2 (amended): for the spec's scenario config `{total_rooms 12,
max_branches_per_room 0, boss_room_frequency 4, secret_room_chance 0,
backtrack_connections true}` and every seed (seed 42 included), the
layout has exactly nine rooms, one critical-path room at each depth 0..8
in order — not thirteen rooms at depths 0..12 — with no branch or secret
rooms, and both `validate_connectivity` and `validate_critical_path`
return true. -/
theorem c2_scenario_layout (cossin : Nat → Nat → ℚ × ℚ) (s e : Rng) :
    ((generateDungeon cfgScenario cossin s e).rooms.map
        (fun p => p.2.depth)) = [0, 1, 2, 3, 4, 5, 6, 7, 8] ∧
    (∀ p ∈ (generateDungeon cfgScenario cossin s e).rooms,
      p.2.is_critical_path = true ∧
      p.2.template.room_type ≠ RoomType.Secret) ∧
    validateConnectivity (generateDungeon cfgScenario cossin s e) = true ∧
    validateCriticalPath (generateDungeon cfgScenario cossin s e) = true := by
  rw [generateDungeon_simple cfgScenario rfl rfl]
  obtain ⟨t0, t1, t2, t3, t4, t5, t6, t7, t8, s', e', hcp, h0, h1, h2, h3,
    h4, h5, h6, h7, h8⟩ := criticalPath_12_4 cfgScenario rfl rfl s e
  rw [hcp]
  rw [generateConnections_rooms12 cfgScenario rfl]
  rw [validateAndFixLayout_rooms12 cfgScenario _ t0 t1 t2 t3 t4 t5 t6 t7 t8
    h0 h1 h2 h3.1 h4.1 h5.1 h6.1 h7.1 h8.1]
  dsimp only
  refine ⟨?_, ?_, ?_, ?_⟩
  · simp [roomPairs12]
  · intro p hp
    simp only [roomPairs12, List.mem_cons, List.not_mem_nil, or_false] at hp
    rcases hp with rfl | rfl | rfl | rfl | rfl | rfl | rfl | rfl | rfl
    · exact ⟨rfl, by simp [h0]⟩
    · exact ⟨rfl, h3.2⟩
    · exact ⟨rfl, h4.2⟩
    · exact ⟨rfl, h5.2⟩
    · exact ⟨rfl, by simp [h1]⟩
    · exact ⟨rfl, h6.2⟩
    · exact ⟨rfl, h7.2⟩
    · exact ⟨rfl, h8.2⟩
    · exact ⟨rfl, by simp [h2]⟩
  · rw [validateConnectivity_eq]
    rw [show (bfsFuel
      { rooms := roomPairs12 t0 t1 t2 t3 t4 t5 t6 t7 t8
        connections := chainConns12, start_room := ⟨0⟩
        boss_rooms := [⟨1⟩, ⟨2⟩], total_rooms := cfgScenario.total_rooms }) = 17
      from bfsFuel_chain12 _ _ _ _]
    rw [bfsChain12]
    simp [roomPairs12, chainConns12, chainF, chainB]
  · simp [validateCriticalPath, hasPathBetween, bfsFuel_chain12,
      hasPathChain12_boss1, hasPathChain12_boss2]

/-- C2 witness: the first room of the concretely generated scenario
layout is on the critical path. -/
theorem c2_scenario_layout_witness :
    ((generateDungeon cfgScenario csUnit (constStream 0)
      (constStream 0)).rooms.getD 0 (⟨0⟩, dummyRoom)).2.is_critical_path =
      true :=
  ((c2_scenario_layout csUnit (constStream 0) (constStream 0)).2.1 _
    (by decide)).1

/-- C2 counterexample: at seed-stream valuation zero, the scenario config
yields nine rooms, not the thirteen the claim states. -/
theorem c2_room_count_not_13 :
    decide ((generateDungeon cfgScenario csUnit (constStream 0)
      (constStream 0)).rooms.length = 13) = false := by decide

/-- C1: refuted as stated. `generate_room_template` draws from
`thread_rng()`, not from the seeded `ChaCha8Rng`, so two runs with the
same config and the same seeded stream but different ambient entropy
return different `DungeonLayout`s — here the single room's template name
is "Dunas Mortais" in one run and "Oásis Envenenado" in the other. -/
theorem c1_layouts_differ_with_entropy :
    decide (generateDungeon cfgOneRoom csUnit (constStream 0) (constStream 0) =
      generateDungeon cfgOneRoom csUnit (constStream 0) (constStream 1)) =
      false ∧
    ((generateDungeon cfgOneRoom csUnit (constStream 0)
        (constStream 0)).rooms.map (fun p => p.2.template.name)) =
      ["Dunas Mortais"] ∧
    ((generateDungeon cfgOneRoom csUnit (constStream 0)
        (constStream 1)).rooms.map (fun p => p.2.template.name)) =
      ["Oásis Envenenado"] := by
  refine ⟨by decide, by decide, by decide⟩

/-- C4 counterexample: `generate_dungeon` accepts `total_rooms = 0` and
silently returns a one-room layout instead of rejecting the config. -/
theorem c4_zero_rooms_layout_returned :
    (generateDungeon cfgZeroRooms csUnit (constStream 0)
      (constStream 0)).rooms.length = 1 ∧
    (generateDungeon cfgZeroRooms csUnit (constStream 0)
      (constStream 0)).total_rooms = 0 := by
  refine ⟨by decide, by decide⟩

/-- C4 (amended): no config validation exists. For every seed,
`generate_dungeon` with `total_rooms = 0` (and no branches or secret
rooms) silently returns the degenerate layout whose only room is the
start room at depth 0. -/
theorem c4_no_config_validation (cossin : Nat → Nat → ℚ × ℚ) (s e : Rng) :
    ((generateDungeon cfgZeroRooms cossin s e).rooms.map
      (fun p => (p.1, p.2.depth, p.2.is_critical_path))) = [(⟨0⟩, 0, true)] ∧
    (generateDungeon cfgZeroRooms cossin s e).start_room = ⟨0⟩ := by
  constructor <;>
    simp [generateDungeon, generateCriticalPath, cfgZeroRooms, rangeStepBy,
      genBossRooms, fillCriticalPath, addBranchingRooms, genBranchRooms,
      genBranchList, generateConnections, addChainConnections,
      addBranchConnections, addSecretRooms, addSecretLoop,
      validateAndFixLayout, Rng.genRangeIncl, Rng.next, Nat.mod_one]

/-- C6: refuted as stated (code bug). `generate_connections` calls
`should_lock_branch_connection` twice with fresh randomness — once for
`is_locked` and once for `unlock_condition` — so under `lockStream` the
single Treasure branch connection is generated with `is_locked = true`
but `unlock_condition = None`. -/
theorem c6_locked_connection_without_condition :
    ((connsAt (generateDungeon cfgOneBranch csUnit lockStream
        (constStream 0)).connections ⟨0⟩).map
      (fun c => (c.to_room, c.is_locked, c.unlock_condition))) =
      [(⟨1⟩, true, none)] ∧
    ((generateDungeon cfgOneBranch csUnit lockStream
        (constStream 0)).rooms.map
      (fun p => (p.1.val, p.2.template.room_type))) =
      [(0, RoomType.Combat), (1, RoomType.Treasure)] := by
  refine ⟨by decide, by decide⟩

/-- C9: the `total_rooms` field of every generated layout is copied
verbatim from the config, and it can differ from the actual number of
rooms — under the scenario config the layout stores `total_rooms = 12`
but holds only nine rooms. -/
theorem c9_total_rooms_field :
    (∀ (config : DungeonGenerationConfig) (cossin : Nat → Nat → ℚ × ℚ)
      (s e : Rng), 0 < config.boss_room_frequency →
      (generateDungeon config cossin s e).total_rooms = config.total_rooms) ∧
    decide ((generateDungeon cfgScenario csUnit (constStream 0)
      (constStream 0)).rooms.length = cfgScenario.total_rooms) = false := by
  exact ⟨fun _ _ _ _ _ => rfl, by decide⟩

/-- C9 witness: the default config stores its `total_rooms` verbatim. -/
theorem c9_total_rooms_field_witness :
    (generateDungeon DungeonGenerationConfig.default csUnit (constStream 0)
      (constStream 0)).total_rooms =
      DungeonGenerationConfig.default.total_rooms :=
  c9_total_rooms_field.1 DungeonGenerationConfig.default csUnit
    (constStream 0) (constStream 0) (by decide)

/-- Looking up a weight after a guarded multiplicative update: only the
updated key's entry changes. -/
theorem lookupWeight_modifyWeight (w : List (RoomType × ℚ)) (k k' : RoomType)
    (f : ℚ) :
    lookupWeight (modifyWeight w k f) k' =
      if k' = k then (lookupWeight w k').map (fun q => q * f)
      else lookupWeight w k' := by
  induction w with
  | nil => cases em (k' = k) <;> simp [modifyWeight, lookupWeight, *]
  | cons p rest ih =>
      by_cases hpk : p.1 = k <;> by_cases hk : k' = k <;>
        by_cases hpk' : p.1 = k' <;>
        simp_all [modifyWeight, lookupWeight]

/-- C8 (amended): the `[Elite, _]` history pattern keys on the
second-to-last room, not the last. Whenever the last two history entries
are `[Elite, x]`, the Rest weight is doubled in the variety step (and if
`x` is itself Rest, the anti-repetition halving first halves it, so the
net effect is the original weight). -/
theorem c8_rest_doubled_on_second_to_last_elite (w : List (RoomType × ℚ))
    (history : List RoomType) (x : RoomType)
    (hlast : history.drop (history.length - 2) = [RoomType.Elite, x]) :
    lookupWeight (applyHistoryAdjustments w history) RoomType.Rest =
      (lookupWeight w RoomType.Rest).map
        (fun q => if x = RoomType.Rest then q else 2 * q) := by
  have hlen : 2 ≤ history.length := by
    rcases history with _ | ⟨a, _ | ⟨b, rest⟩⟩
    · simp at hlast
    · simp at hlast
    · simp
  rw [applyHistoryAdjustments, if_pos hlen, hlast]
  rcases hw : lookupWeight w RoomType.Rest with _ | q <;>
    by_cases hx : x = RoomType.Rest
  · subst hx
    simp [lookupWeight_modifyWeight, hw]
  · simp [lookupWeight_modifyWeight, hw, Ne.symm hx]
  · subst hx
    simp [lookupWeight_modifyWeight, hw]
  · simp [lookupWeight_modifyWeight, hw, hx, Ne.symm hx]
    ring

/-- C8 witness: with history `[Elite, Combat]` (second-to-last Elite) the
Rest weight of the floor-3 table is doubled. -/
theorem c8_rest_doubled_witness :
    lookupWeight (applyHistoryAdjustments (buildRoomWeights 3)
      [RoomType.Elite, RoomType.Combat]) RoomType.Rest =
    (lookupWeight (buildRoomWeights 3) RoomType.Rest).map
      (fun q => if RoomType.Combat = RoomType.Rest then q else 2 * q) :=
  c8_rest_doubled_on_second_to_last_elite (buildRoomWeights 3)
    [RoomType.Elite, RoomType.Combat] RoomType.Combat (by decide)

/-- C8 counterexample: with history `[Combat, Elite]` — last entry Elite,
as the claim reads it — the Rest weight is left untouched (1/20 at floor
3), not doubled. -/
theorem c8_last_elite_not_doubled :
    [RoomType.Combat, RoomType.Elite].getLast? = some RoomType.Elite ∧
    lookupWeight (applyHistoryAdjustments (buildRoomWeights 3)
      [RoomType.Combat, RoomType.Elite]) RoomType.Rest = some (1 / 20) ∧
    lookupWeight (buildRoomWeights 3) RoomType.Rest = some (1 / 20) ∧
    decide ((1 : ℚ) / 20 = 2 * (1 / 20)) = false := by
  refine ⟨by decide, by decide, by decide, by decide⟩

/-- `allConns` distributes over a cons cell of the connection map. -/
theorem allConns_cons (k : RoomId) (v : List RoomConnection)
    (rest : List (RoomId × List RoomConnection)) :
    allConns ((k, v) :: rest) = v ++ allConns rest := by
  simp [allConns]

/-- The outgoing list of a key after a push: the pushed connection is
appended at the pushed key and nothing else changes. -/
theorem connsAt_mapPush (m : List (RoomId × List RoomConnection))
    (k0 : RoomId) (c0 : RoomConnection) (k : RoomId) :
    connsAt (mapPush m k0 c0) k =
      if k = k0 then connsAt m k ++ [c0] else connsAt m k := by
  induction m with
  | nil =>
      by_cases h : k = k0
      · subst h; simp [mapPush, connsAt, mapGet]
      · simp [mapPush, connsAt, mapGet, h, Ne.symm h]
  | cons p rest ih =>
      obtain ⟨k', v⟩ := p
      by_cases h1 : k' = k0
      · subst h1
        by_cases h2 : k' = k
        · subst h2; simp [mapPush, connsAt, mapGet]
        · simp [mapPush, connsAt, mapGet, h2, Ne.symm h2]
      · by_cases h2 : k' = k
        · subst h2
          simp [mapPush, connsAt, mapGet, h1]
        · simpa [mapPush, connsAt, mapGet, h1, h2] using ih

/-- Membership in `allConns` after a push. -/
theorem mem_allConns_mapPush (m : List (RoomId × List RoomConnection))
    (k0 : RoomId) (c0 c : RoomConnection) :
    c ∈ allConns (mapPush m k0 c0) ↔ c ∈ allConns m ∨ c = c0 := by
  induction m with
  | nil => simp [mapPush, allConns]
  | cons p rest ih =>
      obtain ⟨k', v⟩ := p
      by_cases h : k' = k0 <;>
        simp [mapPush, h, allConns_cons, ih, List.mem_append] <;> tauto

/-- `countP` over `allConns` after a push. -/
theorem countP_allConns_mapPush (m : List (RoomId × List RoomConnection))
    (k0 : RoomId) (c0 : RoomConnection) (p : RoomConnection → Bool) :
    (allConns (mapPush m k0 c0)).countP p =
      (allConns m).countP p + (if p c0 then 1 else 0) := by
  induction m with
  | nil => simp [mapPush, allConns, List.countP_cons]
  | cons q rest ih =>
      obtain ⟨k', v⟩ := q
      by_cases h : k' = k0 <;>
        simp [mapPush, h, allConns_cons, List.countP_append, ih,
          List.countP_cons] <;> omega

/-- A stored outgoing connection occurs in `allConns`. -/
theorem connsAt_mem_allConns (m : List (RoomId × List RoomConnection))
    (k : RoomId) (c : RoomConnection) (h : c ∈ connsAt m k) :
    c ∈ allConns m := by
  induction m with
  | nil => simp [connsAt, mapGet] at h
  | cons q rest ih =>
      obtain ⟨k', v⟩ := q
      rw [allConns_cons]
      by_cases hk : k' = k
      · exact List.mem_append.2 (Or.inl (by simpa [connsAt, mapGet, hk] using h))
      · exact List.mem_append.2 (Or.inr (ih (by simpa [connsAt, mapGet, hk] using h)))

/-- A property of all stored connections survives a push of a connection
that also satisfies it. -/
theorem allConns_pred_mapPush (P : RoomConnection → Prop)
    (m : List (RoomId × List RoomConnection)) (k0 : RoomId)
    (c0 : RoomConnection) (hm : ∀ c ∈ allConns m, P c) (h0 : P c0) :
    ∀ c ∈ allConns (mapPush m k0 c0), P c := by
  intro c hc
  rcases (mem_allConns_mapPush m k0 c0 c).1 hc with h | rfl
  · exact hm c h
  · exact h0

/-- Every push made by the generator stores a connection whose `from_room`
is the map key; this invariant is preserved by one push. -/
theorem connsAt_key_mapPush (m : List (RoomId × List RoomConnection))
    (k0 : RoomId) (c0 : RoomConnection)
    (hm : ∀ k, ∀ c ∈ connsAt m k, c.from_room = k)
    (h0 : c0.from_room = k0) :
    ∀ k, ∀ c ∈ connsAt (mapPush m k0 c0) k, c.from_room = k := by
  intro k c hc
  rw [connsAt_mapPush] at hc
  by_cases h : k = k0
  · rw [if_pos h] at hc
    rcases List.mem_append.1 hc with h1 | h1
    · exact hm k c h1
    · obtain rfl := List.mem_singleton.1 h1
      rw [h0, h]
  · rw [if_neg h] at hc
    exact hm k c hc

/-- A stored connection stays stored under further pushes. -/
theorem connsAt_mono_mapPush (m : List (RoomId × List RoomConnection))
    (k0 : RoomId) (c0 : RoomConnection) (k : RoomId) (c : RoomConnection)
    (h : c ∈ connsAt m k) : c ∈ connsAt (mapPush m k0 c0) k := by
  rw [connsAt_mapPush]
  split
  · exact List.mem_append.2 (Or.inl h)
  · exact h

/-- `min_by` returns an element of the list (or the starting accumulator). -/
theorem findMinByDist_mem (br : DungeonRoom) :
    ∀ (l : List DungeonRoom) (acc : Option DungeonRoom) (r : DungeonRoom),
      findMinByDist br acc l = some r → r ∈ l ∨ acc = some r := by
  intro l
  induction l with
  | nil => intro acc r h; exact Or.inr h
  | cons x rest ih =>
      intro acc r h
      rcases acc with _ | a
      · rcases ih (some x) r (by simpa [findMinByDist] using h) with h1 | h1
        · exact Or.inl (List.mem_cons_of_mem _ h1)
        · obtain rfl := Option.some.inj h1
          exact Or.inl (List.mem_cons_self _ _)
      · rcases ih _ r (by simpa [findMinByDist] using h) with h1 | h1
        · exact Or.inl (List.mem_cons_of_mem _ h1)
        · have h2 := Option.some.inj h1
          by_cases hd : sqDist br.position x.position <
              sqDist br.position a.position
          · rw [if_pos hd] at h2
            subst h2
            exact Or.inl (List.mem_cons_self _ _)
          · rw [if_neg hd] at h2
            exact Or.inr (by rw [h2])

/-- The nearest critical room is one of the critical rooms. -/
theorem findNearestCriticalRoom_mem (br : DungeonRoom)
    (cr : List DungeonRoom) (r : DungeonRoom)
    (h : findNearestCriticalRoom br cr = some r) : r ∈ cr := by
  rcases findMinByDist_mem br _ none r h with h1 | h1
  · exact List.mem_of_mem_filter h1
  · cases h1

/-- The weight-table walk returns the Combat fallback or a listed type. -/
theorem weightWalk_mem (ws : List (RoomType × ℚ)) : ∀ rv : ℚ,
    weightWalk ws rv = RoomType.Combat ∨
      ∃ w, (weightWalk ws rv, w) ∈ ws := by
  induction ws with
  | nil => intro rv; exact Or.inl rfl
  | cons p rest ih =>
      intro rv
      obtain ⟨t, w⟩ := p
      by_cases h : rv - w ≤ 0
      · exact Or.inr ⟨w, by simp [weightWalk, h]⟩
      · rcases ih (rv - w) with h1 | ⟨w', h1⟩
        · exact Or.inl (by simpa [weightWalk, h] using h1)
        · refine Or.inr ⟨w', ?_⟩
          simp only [weightWalk, h, if_false]
          exact List.mem_cons_of_mem _ h1

/-- `select_branch_room_type` never yields a Boss or Secret room: every
weight table it builds lists neither, and the fallback is Combat. -/
theorem selectBranchRoomType_ne (p : DungeonRoom) (s : Rng) :
    (selectBranchRoomType p s).1 ≠ RoomType.Boss ∧
    (selectBranchRoomType p s).1 ≠ RoomType.Secret := by
  have key : ∀ (ws : List (RoomType × ℚ)) (rv : ℚ),
      (∀ q ∈ ws, q.1 ≠ RoomType.Boss ∧ q.1 ≠ RoomType.Secret) →
      weightWalk ws rv ≠ RoomType.Boss ∧
        weightWalk ws rv ≠ RoomType.Secret := by
    intro ws rv hws
    rcases weightWalk_mem ws rv with h | ⟨w, h⟩
    · rw [h]; exact ⟨by decide, by decide⟩
    · exact hws _ h
  cases hty : p.template.room_type <;>
    simp only [selectBranchRoomType, hty, Rng.genUnit, Rng.next] <;>
    exact key _ _ (by decide)

/-- `getD` at an in-range index is a member of the list. -/
theorem getD_mem_of_lt (l : List DungeonRoom) (i : Nat) (d : DungeonRoom)
    (h : i < l.length) : l.getD i d ∈ l := by
  rw [List.getD_eq_getElem?_getD, List.getElem?_eq_getElem h]
  exact List.getElem_mem h

/-- The boss-creation loop advances its id counter by one per floor, and
every room it creates is a critical-path Boss room with id in
`[counter, counter + floors.length)`. -/
theorem genBossRooms_inv (floors : List Nat) : ∀ (counter : Nat) (e : Rng),
    (genBossRooms floors counter e).2.1 = counter + floors.length ∧
    ∀ r ∈ (genBossRooms floors counter e).1,
      r.is_critical_path = true ∧ r.template.room_type = RoomType.Boss ∧
      counter ≤ r.id.val ∧ r.id.val < counter + floors.length := by
  induction floors with
  | nil => intro counter e; exact ⟨rfl, by simp [genBossRooms]⟩
  | cons f rest ih =>
      intro counter e
      rcases ht : generateRoomTemplate RoomType.Boss (determineBiomeForFloor f)
        f e with ⟨t, e1⟩
      obtain ⟨ih1, ih2⟩ := ih (counter + 1) e1
      rcases hr : genBossRooms rest (counter + 1) e1 with ⟨rooms', counter', e2⟩
      rw [hr] at ih1 ih2
      dsimp only at ih1 ih2
      constructor
      · simp only [genBossRooms, ht, hr, List.length_cons]
        omega
      · intro r hr'
        simp only [genBossRooms, ht, hr, List.mem_cons] at hr'
        rcases hr' with rfl | hr'
        · refine ⟨rfl, ?_, by simp, by simp only [List.length_cons]; omega⟩
          have h2 := generateRoomTemplate_room_type RoomType.Boss
            (determineBiomeForFloor f) f e
          rw [ht] at h2
          exact h2
        · obtain ⟨ha, hb, hc, hd⟩ := ih2 r hr'
          refine ⟨ha, hb, by omega, ?_⟩
          simp only [List.length_cons]
          omega

/-- The boss-creation loop creates one room per listed floor. -/
theorem genBossRooms_len (floors : List Nat) : ∀ (counter : Nat) (e : Rng),
    (genBossRooms floors counter e).1.length = floors.length := by
  induction floors with
  | nil => intro counter e; rfl
  | cons f rest ih =>
      intro counter e
      rcases ht : generateRoomTemplate RoomType.Boss (determineBiomeForFloor f)
        f e with ⟨t, e1⟩
      rcases hr : genBossRooms rest (counter + 1) e1 with ⟨rooms', counter', e2⟩
      have h2 := ih (counter + 1) e1
      rw [hr] at h2
      dsimp only at h2
      simp only [genBossRooms, ht, hr, List.length_cons, h2]

/-- The fill loop of `generate_critical_path`: it keeps the id counter
equal to the list length, keeps all ids below the counter, adds only
critical-path rooms that are neither Boss nor Secret, and never touches
the head of the list (it inserts at positions `≥ 1`). -/
theorem fillCriticalPath_inv (total : Nat) : ∀ (fuel : Nat)
    (rooms : List DungeonRoom) (counter depth ii : Nat) (s e : Rng),
    counter = rooms.length →
    (∀ r ∈ rooms, r.id.val < counter) →
    1 ≤ ii →
    (fillCriticalPath total fuel rooms counter depth ii s e).2.1 =
      (fillCriticalPath total fuel rooms counter depth ii s e).1.length ∧
    (∀ r ∈ (fillCriticalPath total fuel rooms counter depth ii s e).1,
      r.id.val < (fillCriticalPath total fuel rooms counter depth ii s e).2.1) ∧
    (∀ r ∈ (fillCriticalPath total fuel rooms counter depth ii s e).1,
      r ∈ rooms ∨
        (r.is_critical_path = true ∧
          r.template.room_type ≠ RoomType.Boss ∧
          r.template.room_type ≠ RoomType.Secret)) ∧
    (fillCriticalPath total fuel rooms counter depth ii s e).1.head? =
      rooms.head? := by
  intro fuel
  induction fuel with
  | zero =>
      intro rooms counter depth ii s e hcnt hid hii
      simp only [fillCriticalPath]
      exact ⟨hcnt, fun r hr => hid r hr, fun r hr => Or.inl hr, by trivial⟩
  | succ n ih =>
      intro rooms counter depth ii s e hcnt hid hii
      rw [show fillCriticalPath total (n + 1) rooms counter depth ii s e =
        if depth < total ∧ ii < rooms.length then
          if depth < (rooms.getD ii dummyRoom).depth then
            match s.genBool (8 / 10) with
            | (b, s1) =>
              match generateRoomTemplate
                  (if b then RoomType.Combat else RoomType.Elite)
                  (determineBiomeForFloor depth) depth e with
              | (t, e1) =>
                fillCriticalPath total n
                  (rooms.insertIdx ii
                    { id := ⟨counter⟩, template := t
                      position := (0, (depth : ℚ) * 100), depth := depth
                      is_critical_path := true, connections := [] })
                  (counter + 1) (depth + 1) (ii + 1) s1 e1
          else fillCriticalPath total n rooms counter (depth + 1) (ii + 1) s e
        else (rooms, counter, s, e) from rfl]
      by_cases hg : depth < total ∧ ii < rooms.length
      · rw [if_pos hg]
        by_cases hd : depth < (rooms.getD ii dummyRoom).depth
        · rw [if_pos hd]
          rcases hgb : s.genBool (8 / 10) with ⟨b, s1⟩
          dsimp only
          rcases hgt : generateRoomTemplate
              (if b then RoomType.Combat else RoomType.Elite)
              (determineBiomeForFloor depth) depth e with ⟨t, e1⟩
          dsimp only
          have hle : ii ≤ rooms.length := Nat.le_of_lt hg.2
          have hlen : (rooms.insertIdx ii
              { id := ⟨counter⟩, template := t
                position := (0, (depth : ℚ) * 100), depth := depth
                is_critical_path := true, connections := [] }
                : List DungeonRoom).length = rooms.length + 1 :=
            List.length_insertIdx ii rooms hle
          obtain ⟨j1, j2, j3, j4⟩ := ih _ (counter + 1) (depth + 1) (ii + 1)
            s1 e1
            (by rw [hlen, hcnt])
            (by
              intro r hr
              rcases (List.mem_insertIdx hle).1 hr with rfl | hr
              · simp
              · exact Nat.lt_succ_of_lt (hid r hr))
            (Nat.le_succ_of_le hii)
          refine ⟨j1, j2, ?_, ?_⟩
          · intro r hr
            rcases j3 r hr with hr' | hr'
            · rcases (List.mem_insertIdx hle).1 hr' with rfl | hr''
              · refine Or.inr ⟨rfl, ?_⟩
                have h2 := generateRoomTemplate_ite_ct b
                  (determineBiomeForFloor depth) depth e
                rw [hgt] at h2
                exact h2
              · exact Or.inl hr''
            · exact Or.inr hr'
          · rw [j4]
            rcases ii with _ | i
            · omega
            · rcases rooms with _ | ⟨x, xs⟩
              · simp at hg
              · simp [List.insertIdx_succ_cons]
        · rw [if_neg hd]
          exact ih rooms counter (depth + 1) (ii + 1) s e hcnt hid
            (Nat.le_succ_of_le hii)
      · rw [if_neg hg]
        exact ⟨hcnt, fun r hr => hid r hr, fun r hr => Or.inl hr, by trivial⟩


/-- Invariants of the whole critical path, for any config and seed: the
head is the depth-0 Desert Combat start room with id 0, and every room is
a critical-path room, not Secret-typed, with id below the list length. -/
theorem generateCriticalPath_inv (config : DungeonGenerationConfig)
    (s e : Rng) :
    (∃ t : RoomTemplate, t.room_type = RoomType.Combat ∧
      t.biome = BiomeType.Desert ∧
      (generateCriticalPath config s e).1.head? = some (startRoom t)) ∧
    ∀ r ∈ (generateCriticalPath config s e).1,
      r.is_critical_path = true ∧
      r.template.room_type ≠ RoomType.Secret ∧
      r.id.val < (generateCriticalPath config s e).1.length := by
  rcases ht : generateRoomTemplate RoomType.Combat BiomeType.Desert 1 e
    with ⟨t0, e1⟩
  have ht0 : t0.room_type = RoomType.Combat := by
    have h2 := generateRoomTemplate_room_type RoomType.Combat BiomeType.Desert
      1 e
    rw [ht] at h2; exact h2
  have hb0 : t0.biome = BiomeType.Desert := by
    have h2 := generateRoomTemplate_biome RoomType.Combat BiomeType.Desert 1 e
    rw [ht] at h2; exact h2
  rcases hbs : genBossRooms
    ((rangeStepBy config.total_rooms config.boss_room_frequency).drop 1) 1 e1
    with ⟨bosses, counter, e2⟩
  obtain ⟨g1, g2⟩ := genBossRooms_inv
    ((rangeStepBy config.total_rooms config.boss_room_frequency).drop 1) 1 e1
  have glen := genBossRooms_len
    ((rangeStepBy config.total_rooms config.boss_room_frequency).drop 1) 1 e1
  rw [hbs] at g1 g2 glen
  dsimp only at g1 g2 glen
  have hc1 : 1 ≤ counter := by omega
  have hcnt : counter = (startRoom t0 :: bosses).length := by
    simp only [List.length_cons, glen]
    omega
  have hid : ∀ r ∈ startRoom t0 :: bosses, r.id.val < counter := by
    intro r hr
    rcases List.mem_cons.1 hr with rfl | hr
    · exact hc1
    · obtain ⟨_, _, _, hd⟩ := g2 r hr
      omega
  obtain ⟨j1, j2, j3, j4⟩ := fillCriticalPath_inv config.total_rooms
    config.total_rooms _ counter 1 1 s e2 hcnt hid le_rfl
  rcases hfill : fillCriticalPath config.total_rooms config.total_rooms
    (startRoom t0 :: bosses) counter 1 1 s e2 with ⟨rooms', c', s', e'⟩
  rw [hfill] at j1 j2 j3 j4
  dsimp only at j1 j2 j3 j4
  have hgen : generateCriticalPath config s e = (rooms', s', e') := by
    simp only [startRoom] at hfill
    simp only [generateCriticalPath, ht, hbs, hfill]
  rw [hgen]
  dsimp only
  constructor
  · refine ⟨t0, ht0, hb0, ?_⟩
    rw [j4]
    rfl
  · intro r hr
    have hj2 := j2 r hr
    rw [j1] at hj2
    refine ⟨?_, ?_, hj2⟩ <;>
      rcases j3 r hr with hr' | hr'
    · rcases List.mem_cons.1 hr' with rfl | hr''
      · rfl
      · exact (g2 r hr'').1
    · exact hr'.1
    · rcases List.mem_cons.1 hr' with rfl | hr''
      · simp only [startRoom, ht0]
        decide
      · rw [(g2 r hr'').2.1]
        decide
    · exact hr'.2.2

/-- The per-parent branch loop: one room per branch index, ids assigned
consecutively from `counter`; every created room is an off-path room at
the parent's depth, never Boss or Secret, with the biome of its depth. -/
theorem genBranchList_inv (cossin : Nat → Nat → ℚ × ℚ)
    (parent : DungeonRoom) (num : Nat) : ∀ (bis : List Nat) (counter : Nat)
    (s e : Rng),
    (genBranchList cossin parent num bis counter s e).1.length = bis.length ∧
    (genBranchList cossin parent num bis counter s e).2.1 =
      counter + bis.length ∧
    ∀ r ∈ (genBranchList cossin parent num bis counter s e).1,
      r.is_critical_path = false ∧ r.depth = parent.depth ∧
      r.template.room_type ≠ RoomType.Boss ∧
      r.template.room_type ≠ RoomType.Secret ∧
      r.template.biome = determineBiomeForFloor r.depth ∧
      counter ≤ r.id.val ∧ r.id.val < counter + bis.length := by
  intro bis
  induction bis with
  | nil => intro counter s e; exact ⟨rfl, rfl, by simp [genBranchList]⟩
  | cons bi rest ih =>
      intro counter s e
      rcases hsel : selectBranchRoomType parent s with ⟨ty, s1⟩
      have hty := selectBranchRoomType_ne parent s
      rw [hsel] at hty
      rcases hgt : generateRoomTemplate ty
        (determineBiomeForFloor parent.depth) parent.depth e with ⟨t, e1⟩
      have htt : t.room_type = ty := by
        have h2 := generateRoomTemplate_room_type ty
          (determineBiomeForFloor parent.depth) parent.depth e
        rw [hgt] at h2; exact h2
      have htb : t.biome = determineBiomeForFloor parent.depth := by
        have h2 := generateRoomTemplate_biome ty
          (determineBiomeForFloor parent.depth) parent.depth e
        rw [hgt] at h2; exact h2
      obtain ⟨ih0, ih1, ih2⟩ := ih (counter + 1) s1 e1
      rcases hrec : genBranchList cossin parent num rest (counter + 1) s1 e1
        with ⟨rooms', counter', s', e'⟩
      rw [hrec] at ih0 ih1 ih2
      dsimp only at ih0 ih1 ih2
      refine ⟨?_, ?_, ?_⟩
      · simp only [genBranchList, hsel, hgt, hrec, List.length_cons, ih0]
      · simp only [genBranchList, hsel, hgt, hrec, List.length_cons]
        omega
      · intro r hr
        simp only [genBranchList, hsel, hgt, hrec, List.mem_cons] at hr
        rcases hr with rfl | hr
        · refine ⟨rfl, rfl, ?_, ?_, ?_, ?_, ?_⟩
          · dsimp only; rw [htt]; exact hty.1
          · dsimp only; rw [htt]; exact hty.2
          · dsimp only; rw [htb]
          · exact Nat.le_refl counter
          · simp only [List.length_cons]; omega
        · obtain ⟨ha, hb, hc, hd, he, hf, hg⟩ := ih2 r hr
          refine ⟨ha, hb, hc, hd, he, by omega, ?_⟩
          simp only [List.length_cons]; omega

/-- The branch loop over all parents: ids assigned consecutively from
`counter`, and every branch room is an off-path non-Boss non-Secret room
sitting at some parent's depth, with the biome of its depth. -/
theorem genBranchRooms_inv (cossin : Nat → Nat → ℚ × ℚ) (mb : Nat) :
    ∀ (parents : List DungeonRoom) (counter : Nat) (s e : Rng),
    (genBranchRooms cossin mb parents counter s e).2.1 =
      counter + (genBranchRooms cossin mb parents counter s e).1.length ∧
    ∀ r ∈ (genBranchRooms cossin mb parents counter s e).1,
      r.is_critical_path = false ∧
      r.template.room_type ≠ RoomType.Boss ∧
      r.template.room_type ≠ RoomType.Secret ∧
      r.template.biome = determineBiomeForFloor r.depth ∧
      (∃ p ∈ parents, r.depth = p.depth) ∧
      counter ≤ r.id.val ∧
      r.id.val < counter + (genBranchRooms cossin mb parents counter s e).1.length := by
  intro parents
  induction parents with
  | nil => intro counter s e; exact ⟨rfl, by simp [genBranchRooms]⟩
  | cons p rest ih =>
      intro counter s e
      rcases hn : s.genRangeIncl 0 mb with ⟨n, s1⟩
      obtain ⟨b0, b1, b2⟩ := genBranchList_inv cossin p n (List.range n)
        counter s1 e
      rcases hbl : genBranchList cossin p n (List.range n) counter s1 e
        with ⟨bs, counter1, s2, e1⟩
      rw [hbl] at b0 b1 b2
      dsimp only at b0 b1 b2
      obtain ⟨r1, r2⟩ := ih counter1 s2 e1
      rcases hrec : genBranchRooms cossin mb rest counter1 s2 e1
        with ⟨rooms', counter', s', e'⟩
      rw [hrec] at r1 r2
      dsimp only at r1 r2
      have hunf : genBranchRooms cossin mb (p :: rest) counter s e =
          (bs ++ rooms', counter', s', e') := by
        simp only [genBranchRooms, hn, hbl, hrec]
      rw [hunf]
      dsimp only
      have hblen : bs.length = n := by
        rw [b0, List.length_range]
      constructor
      · rw [List.length_append]
        omega
      · intro r hr
        rcases List.mem_append.1 hr with hr' | hr'
        · obtain ⟨ha, hb, hc, hd, he, hf, hg⟩ := b2 r hr'
          refine ⟨ha, hc, hd, he, ⟨p, List.mem_cons_self _ _, hb⟩, hf, ?_⟩
          rw [List.length_append]
          simp only [List.length_range] at hg
          omega
        · obtain ⟨ha, hb, hc, hd, he, hf, hg⟩ := r2 r hr'
          obtain ⟨q, hq, hq2⟩ := he
          refine ⟨ha, hb, hc, hd, ⟨q, List.mem_cons_of_mem _ hq, hq2⟩, ?_, ?_⟩
          · omega
          · rw [List.length_append]
            omega

/-- `add_branching_rooms`, written with projections: the critical rooms
followed by the generated branch rooms. -/
theorem addBranchingRooms_eq (config : DungeonGenerationConfig)
    (cossin : Nat → Nat → ℚ × ℚ) (rooms : List DungeonRoom) (s e : Rng) :
    addBranchingRooms config cossin rooms s e =
      (rooms ++ (genBranchRooms cossin config.max_branches_per_room rooms
        rooms.length s e).1,
       (genBranchRooms cossin config.max_branches_per_room rooms
         rooms.length s e).2.2.1,
       (genBranchRooms cossin config.max_branches_per_room rooms
         rooms.length s e).2.2.2) := by
  simp only [addBranchingRooms]

/-- A property of stored connections that holds for every forward and
backward chain edge is preserved by the chain-connection loop. -/
theorem addChainConnections_pred (P : RoomConnection → Prop)
    (backtrack : Bool) :
    ∀ (pairs : List (DungeonRoom × DungeonRoom))
      (m : List (RoomId × List RoomConnection)),
    (∀ c ∈ allConns m, P c) →
    (∀ pr ∈ pairs, ∀ d : ConnectionDirection,
      P { from_room := pr.1.id, to_room := pr.2.id, direction := d
          is_locked := false, unlock_condition := none } ∧
      P { from_room := pr.2.id, to_room := pr.1.id, direction := d
          is_locked := false, unlock_condition := none }) →
    ∀ c ∈ allConns (addChainConnections backtrack pairs m), P c := by
  intro pairs
  induction pairs with
  | nil => intro m hm _; exact hm
  | cons pr rest ih =>
      intro m hm hp
      obtain ⟨a, b⟩ := pr
      simp only [addChainConnections]
      have h1 : ∀ c ∈ allConns (mapPush m a.id
          { from_room := a.id, to_room := b.id
            direction := calculateConnectionDirection a.position b.position
            is_locked := false, unlock_condition := none }), P c :=
        allConns_pred_mapPush P m a.id _ hm
          ((hp (a, b) (List.mem_cons_self _ _)
            (calculateConnectionDirection a.position b.position)).1)
      refine ih _ ?_ (fun q hq d => hp q (List.mem_cons_of_mem _ hq) d)
      by_cases hbt : backtrack = true
      · rw [if_pos hbt]
        exact allConns_pred_mapPush P _ b.id _ h1
          ((hp (a, b) (List.mem_cons_self _ _)
            (oppositeDirection
              (calculateConnectionDirection a.position b.position))).2)
      · rw [if_neg hbt]
        exact h1

/-- The chain-connection loop stores every connection under its
`from_room` key. -/
theorem addChainConnections_keys (backtrack : Bool) :
    ∀ (pairs : List (DungeonRoom × DungeonRoom))
      (m : List (RoomId × List RoomConnection)),
    (∀ k, ∀ c ∈ connsAt m k, c.from_room = k) →
    ∀ k, ∀ c ∈ connsAt (addChainConnections backtrack pairs m) k,
      c.from_room = k := by
  intro pairs
  induction pairs with
  | nil => intro m hm; exact hm
  | cons pr rest ih =>
      intro m hm
      obtain ⟨a, b⟩ := pr
      simp only [addChainConnections]
      have h1 := connsAt_key_mapPush m a.id
        { from_room := a.id, to_room := b.id
          direction := calculateConnectionDirection a.position b.position
          is_locked := false, unlock_condition := none } hm rfl
      refine ih _ ?_
      by_cases hbt : backtrack = true
      · rw [if_pos hbt]
        exact connsAt_key_mapPush _ b.id _ h1 rfl
      · rw [if_neg hbt]
        exact h1

/-- Endpoint bound: if every room id is below `n` and the map's stored
connections only mention ids below `n`, the branch-connection loop keeps
all endpoints below `n`. -/
theorem addBranchConnections_ends (n : Nat) (cr : List DungeonRoom)
    (hcr : ∀ r ∈ cr, r.id.val < n) :
    ∀ (brs : List DungeonRoom) (m : List (RoomId × List RoomConnection))
      (s : Rng),
    (∀ r ∈ brs, r.id.val < n) →
    (∀ c ∈ allConns m, c.from_room.val < n ∧ c.to_room.val < n) →
    ∀ c ∈ allConns (addBranchConnections cr brs m s).1,
      c.from_room.val < n ∧ c.to_room.val < n := by
  intro brs
  induction brs with
  | nil => intro m s _ hm; exact hm
  | cons br rest ih =>
      intro m s hbr hm
      rcases hfn : findNearestCriticalRoom br cr with _ | near
      · simp only [addBranchConnections, hfn]
        exact ih m s (fun r hr => hbr r (List.mem_cons_of_mem _ hr)) hm
      · have hnear : near.id.val < n :=
          hcr near (findNearestCriticalRoom_mem br cr near hfn)
        have hbrn : br.id.val < n := hbr br (List.mem_cons_self _ _)
        rcases hl1 : shouldLockBranchConnection br s with ⟨locked, s1⟩
        rcases hl2 : shouldLockBranchConnection br s1 with ⟨locked2, s2⟩
        simp only [addBranchConnections, hfn, hl1, hl2]
        refine ih _ s2 (fun r hr => hbr r (List.mem_cons_of_mem _ hr)) ?_
        refine allConns_pred_mapPush _ _ br.id _ ?_ ⟨hbrn, hnear⟩
        exact allConns_pred_mapPush _ m near.id _ hm ⟨hnear, hbrn⟩

/-- The branch-connection loop stores every connection under its
`from_room` key. -/
theorem addBranchConnections_keys (cr : List DungeonRoom) :
    ∀ (brs : List DungeonRoom) (m : List (RoomId × List RoomConnection))
      (s : Rng),
    (∀ k, ∀ c ∈ connsAt m k, c.from_room = k) →
    ∀ k, ∀ c ∈ connsAt (addBranchConnections cr brs m s).1 k,
      c.from_room = k := by
  intro brs
  induction brs with
  | nil => intro m s hm; exact hm
  | cons br rest ih =>
      intro m s hm
      rcases hfn : findNearestCriticalRoom br cr with _ | near
      · simp only [addBranchConnections, hfn]
        exact ih m s hm
      · rcases hl1 : shouldLockBranchConnection br s with ⟨locked, s1⟩
        rcases hl2 : shouldLockBranchConnection br s1 with ⟨locked2, s2⟩
        simp only [addBranchConnections, hfn, hl1, hl2]
        exact ih _ s2
          (connsAt_key_mapPush _ br.id _
            (connsAt_key_mapPush m near.id _ hm rfl) rfl)

/-- Connections already stored survive the branch-connection loop. -/
theorem addBranchConnections_mono (cr : List DungeonRoom) :
    ∀ (brs : List DungeonRoom) (m : List (RoomId × List RoomConnection))
      (s : Rng) (k : RoomId) (c : RoomConnection),
    c ∈ connsAt m k → c ∈ connsAt (addBranchConnections cr brs m s).1 k := by
  intro brs
  induction brs with
  | nil => intro m s k c h; exact h
  | cons br rest ih =>
      intro m s k c h
      rcases hfn : findNearestCriticalRoom br cr with _ | near
      · simp only [addBranchConnections, hfn]
        exact ih m s k c h
      · rcases hl1 : shouldLockBranchConnection br s with ⟨locked, s1⟩
        rcases hl2 : shouldLockBranchConnection br s1 with ⟨locked2, s2⟩
        simp only [addBranchConnections, hfn, hl1, hl2]
        exact ih _ s2 k c
          (connsAt_mono_mapPush _ br.id _ k c
            (connsAt_mono_mapPush m near.id _ k c h))

/-- `generate_connections` only stores connections between the ids of the
given rooms, each under its `from_room` key. -/
theorem generateConnections_inv (rooms : List DungeonRoom)
    (config : DungeonGenerationConfig) (s : Rng) (n : Nat)
    (h : ∀ r ∈ rooms, r.id.val < n) :
    (∀ c ∈ allConns (generateConnections rooms config s).1,
      c.from_room.val < n ∧ c.to_room.val < n) ∧
    (∀ k, ∀ c ∈ connsAt (generateConnections rooms config s).1 k,
      c.from_room = k) := by
  have hcrit : ∀ r ∈ rooms.filter (fun r => r.is_critical_path),
      r.id.val < n := fun r hr => h r (List.mem_of_mem_filter hr)
  have hbr : ∀ r ∈ rooms.filter (fun r => !r.is_critical_path),
      r.id.val < n := fun r hr => h r (List.mem_of_mem_filter hr)
  have hpair : ∀ pr ∈ (rooms.filter (fun r => r.is_critical_path)).zip
      (rooms.filter (fun r => r.is_critical_path)).tail,
      pr.1.id.val < n ∧ pr.2.id.val < n := by
    intro pr hpr
    obtain ⟨h1, h2⟩ := List.of_mem_zip hpr
    exact ⟨hcrit _ h1, hcrit _ (List.tail_subset _ h2)⟩
  have hchain : ∀ c ∈ allConns (addChainConnections
      config.backtrack_connections
      ((rooms.filter (fun r => r.is_critical_path)).zip
        (rooms.filter (fun r => r.is_critical_path)).tail) []),
      c.from_room.val < n ∧ c.to_room.val < n := by
    refine addChainConnections_pred _ _ _ [] (by simp [allConns]) ?_
    intro pr hpr d
    obtain ⟨h1, h2⟩ := hpair pr hpr
    exact ⟨⟨h1, h2⟩, ⟨h2, h1⟩⟩
  have hchainK : ∀ k, ∀ c ∈ connsAt (addChainConnections
      config.backtrack_connections
      ((rooms.filter (fun r => r.is_critical_path)).zip
        (rooms.filter (fun r => r.is_critical_path)).tail) []) k,
      c.from_room = k := by
    refine addChainConnections_keys _ _ [] ?_
    intro k c hc
    simp [connsAt, mapGet] at hc
  have hends := addBranchConnections_ends n
    (rooms.filter (fun r => r.is_critical_path)) hcrit
    (rooms.filter (fun r => !r.is_critical_path)) _ s hbr hchain
  have hkeys := addBranchConnections_keys
    (rooms.filter (fun r => r.is_critical_path))
    (rooms.filter (fun r => !r.is_critical_path)) _ s hchainK
  constructor
  · intro c hc
    exact hends c (by simpa only [generateConnections] using hc)
  · intro k c hc
    exact hkeys k c (by simpa only [generateConnections] using hc)

/-- Connections already stored survive the secret-room loop. -/
theorem addSecretLoop_mono : ∀ (count counter : Nat)
    (rooms : List DungeonRoom) (m : List (RoomId × List RoomConnection))
    (s e : Rng) (k : RoomId) (c : RoomConnection),
    c ∈ connsAt m k →
    c ∈ connsAt (addSecretLoop count counter rooms m s e).2.1 k := by
  intro count
  induction count with
  | zero => intro counter rooms m s e k c h; exact h
  | succ n ih =>
      intro counter rooms m s e k c h
      by_cases hemp : rooms.isEmpty = true
      · simp only [addSecretLoop, hemp, if_true]
        exact ih counter rooms m s e k c h
      · rcases hp : s.genRange 0 rooms.length with ⟨pick, s1⟩
        rcases hdx : s1.genRangeQ (-200) 200 with ⟨dx, s2⟩
        rcases hdy : s2.genRangeQ (-200) 200 with ⟨dy, s3⟩
        rcases hgt : generateRoomTemplate RoomType.Secret
          (determineBiomeForFloor (rooms.getD pick dummyRoom).depth)
          (rooms.getD pick dummyRoom).depth e with ⟨t, e1⟩
        simp only [addSecretLoop, hemp, if_false, hp, hdx, hdy, hgt]
        exact ih _ _ _ _ _ k c
          (connsAt_mono_mapPush m (rooms.getD pick dummyRoom).id _ k c h)

/-- `add_secret_rooms` is the secret-loop with count
`⌊len · chance⌋` and id counter `len`. -/
theorem addSecretRooms_eq (rooms : List DungeonRoom)
    (m : List (RoomId × List RoomConnection))
    (config : DungeonGenerationConfig) (s e : Rng) :
    addSecretRooms rooms m config s e =
      addSecretLoop ⌊(rooms.length : ℚ) * config.secret_room_chance⌋₊
        rooms.length rooms m s e := rfl

/-- One non-degenerate iteration of the secret-room loop, written with
the `secretRoom`/`secretConn` abbreviations. -/
theorem addSecretLoop_step (n counter : Nat) (rooms : List DungeonRoom)
    (m : List (RoomId × List RoomConnection)) (s e : Rng)
    (hemp : ¬rooms.isEmpty = true)
    (pick : Nat) (s1 : Rng) (hp : s.genRange 0 rooms.length = (pick, s1))
    (dx : ℚ) (s2 : Rng) (hdx : s1.genRangeQ (-200) 200 = (dx, s2))
    (dy : ℚ) (s3 : Rng) (hdy : s2.genRangeQ (-200) 200 = (dy, s3))
    (t : RoomTemplate) (e1 : Rng)
    (hgt : generateRoomTemplate RoomType.Secret
      (determineBiomeForFloor (rooms.getD pick dummyRoom).depth)
      (rooms.getD pick dummyRoom).depth e = (t, e1)) :
    addSecretLoop (n + 1) counter rooms m s e =
      addSecretLoop n (counter + 1)
        (rooms ++ [secretRoom (rooms.getD pick dummyRoom) t counter dx dy])
        (mapPush m (rooms.getD pick dummyRoom).id
          (secretConn (rooms.getD pick dummyRoom) counter dx dy)) s3 e1 := by
  simp only [addSecretLoop, hemp, hp, hdx, hdy, hgt, secretRoom, secretConn,
    Bool.false_eq_true, if_false]

/-- The secret-room loop grows the room list by a suffix of Secret-typed
off-path rooms whose biome is that of their depth. -/
theorem addSecretLoop_suffix : ∀ (count counter : Nat)
    (rooms : List DungeonRoom) (m : List (RoomId × List RoomConnection))
    (s e : Rng),
    ∃ suffix : List DungeonRoom,
      (addSecretLoop count counter rooms m s e).1 = rooms ++ suffix ∧
      ∀ r ∈ suffix, r.template.room_type = RoomType.Secret ∧
        r.is_critical_path = false ∧
        r.template.biome = determineBiomeForFloor r.depth := by
  intro count
  induction count with
  | zero =>
      intro counter rooms m s e
      exact ⟨[], by simp [addSecretLoop], by simp⟩
  | succ n ih =>
      intro counter rooms m s e
      by_cases hemp : rooms.isEmpty = true
      · simp only [addSecretLoop, hemp, if_true]
        exact ih counter rooms m s e
      · rcases hp : s.genRange 0 rooms.length with ⟨pick, s1⟩
        rcases hdx : s1.genRangeQ (-200) 200 with ⟨dx, s2⟩
        rcases hdy : s2.genRangeQ (-200) 200 with ⟨dy, s3⟩
        rcases hgt : generateRoomTemplate RoomType.Secret
          (determineBiomeForFloor (rooms.getD pick dummyRoom).depth)
          (rooms.getD pick dummyRoom).depth e with ⟨t, e1⟩
        have htt : t.room_type = RoomType.Secret := by
          have h2 := generateRoomTemplate_room_type RoomType.Secret
            (determineBiomeForFloor (rooms.getD pick dummyRoom).depth)
            (rooms.getD pick dummyRoom).depth e
          rw [hgt] at h2; exact h2
        have htb : t.biome =
            determineBiomeForFloor (rooms.getD pick dummyRoom).depth := by
          have h2 := generateRoomTemplate_biome RoomType.Secret
            (determineBiomeForFloor (rooms.getD pick dummyRoom).depth)
            (rooms.getD pick dummyRoom).depth e
          rw [hgt] at h2; exact h2
        rw [addSecretLoop_step n counter rooms m s e hemp pick s1 hp dx s2
          hdx dy s3 hdy t e1 hgt]
        obtain ⟨suf, hsuf1, hsuf2⟩ := ih (counter + 1)
          (rooms ++ [secretRoom (rooms.getD pick dummyRoom) t counter dx dy])
          (mapPush m (rooms.getD pick dummyRoom).id
            (secretConn (rooms.getD pick dummyRoom) counter dx dy)) s3 e1
        refine ⟨secretRoom (rooms.getD pick dummyRoom) t counter dx dy :: suf,
          ?_, ?_⟩
        · rw [hsuf1, List.append_assoc, List.singleton_append]
        · intro r hr
          rcases List.mem_cons.1 hr with rfl | hr
          · exact ⟨htt, rfl, htb⟩
          · exact hsuf2 r hr

/-- The secret-room loop invariant bundle, relative to the id threshold
`n0` marking the first secret id: ids stay below the advanced counter,
all stored endpoints stay below it, every connection into the secret id
range is locked by `find_secret_switch` and points id-upward, each secret
id has exactly one inbound connection, connections out of the secret
range point id-upward, the rooms at or above `n0` are exactly the
Secret-typed ones, and every connection sits under its `from_room` key. -/
theorem addSecretLoop_inv (n0 : Nat) : ∀ (count counter : Nat)
    (rooms : List DungeonRoom) (m : List (RoomId × List RoomConnection))
    (s e : Rng),
    n0 ≤ counter →
    (∀ r ∈ rooms, r.id.val < counter) →
    (∀ c ∈ allConns m, c.from_room.val < counter ∧ c.to_room.val < counter) →
    (∀ c ∈ allConns m, n0 ≤ c.to_room.val →
      c.is_locked = true ∧ c.unlock_condition = some "find_secret_switch" ∧
      c.from_room.val < c.to_room.val) →
    (∀ j : Nat, n0 ≤ j → j < counter →
      (allConns m).countP (fun c => decide (c.to_room = ⟨j⟩)) = 1) →
    (∀ c ∈ allConns m, n0 ≤ c.from_room.val →
      c.from_room.val < c.to_room.val) →
    (∀ r ∈ rooms, (n0 ≤ r.id.val ↔ r.template.room_type = RoomType.Secret)) →
    (∀ k, ∀ c ∈ connsAt m k, c.from_room = k) →
    ∃ counter' : Nat, counter ≤ counter' ∧
      (∀ r ∈ (addSecretLoop count counter rooms m s e).1,
        r.id.val < counter') ∧
      (∀ c ∈ allConns (addSecretLoop count counter rooms m s e).2.1,
        c.from_room.val < counter' ∧ c.to_room.val < counter') ∧
      (∀ c ∈ allConns (addSecretLoop count counter rooms m s e).2.1,
        n0 ≤ c.to_room.val →
        c.is_locked = true ∧ c.unlock_condition = some "find_secret_switch" ∧
        c.from_room.val < c.to_room.val) ∧
      (∀ j : Nat, n0 ≤ j → j < counter' →
        (allConns (addSecretLoop count counter rooms m s e).2.1).countP
          (fun c => decide (c.to_room = ⟨j⟩)) = 1) ∧
      (∀ c ∈ allConns (addSecretLoop count counter rooms m s e).2.1,
        n0 ≤ c.from_room.val → c.from_room.val < c.to_room.val) ∧
      (∀ r ∈ (addSecretLoop count counter rooms m s e).1,
        (n0 ≤ r.id.val ↔ r.template.room_type = RoomType.Secret)) ∧
      (∀ k, ∀ c ∈ connsAt (addSecretLoop count counter rooms m s e).2.1 k,
        c.from_room = k) := by
  intro count
  induction count with
  | zero =>
      intro counter rooms m s e h7 h1 h2 h3 h4 h5 h6 h8
      exact ⟨counter, Nat.le_refl _, h1, h2, h3, h4, h5, h6, h8⟩
  | succ n ih =>
      intro counter rooms m s e h7 h1 h2 h3 h4 h5 h6 h8
      by_cases hemp : rooms.isEmpty = true
      · simp only [addSecretLoop, hemp, if_true]
        exact ih counter rooms m s e h7 h1 h2 h3 h4 h5 h6 h8
      · rcases hp : s.genRange 0 rooms.length with ⟨pick, s1⟩
        rcases hdx : s1.genRangeQ (-200) 200 with ⟨dx, s2⟩
        rcases hdy : s2.genRangeQ (-200) 200 with ⟨dy, s3⟩
        rcases hgt : generateRoomTemplate RoomType.Secret
          (determineBiomeForFloor (rooms.getD pick dummyRoom).depth)
          (rooms.getD pick dummyRoom).depth e with ⟨t, e1⟩
        have htt : t.room_type = RoomType.Secret := by
          have hq := generateRoomTemplate_room_type RoomType.Secret
            (determineBiomeForFloor (rooms.getD pick dummyRoom).depth)
            (rooms.getD pick dummyRoom).depth e
          rw [hgt] at hq; exact hq
        have hne : rooms ≠ [] := by
          intro hnil; rw [hnil] at hemp; simp at hemp
        have hlen : 0 < rooms.length := List.length_pos.2 hne
        have hpick : pick < rooms.length := by
          have hq := congrArg Prod.fst hp
          simp only [Rng.genRange, Rng.next, Nat.sub_zero, Nat.zero_add] at hq
          rw [← hq]
          exact Nat.mod_lt _ hlen
        have hpar : rooms.getD pick dummyRoom ∈ rooms :=
          getD_mem_of_lt rooms pick dummyRoom hpick
        have hparid : (rooms.getD pick dummyRoom).id.val < counter :=
          h1 _ hpar
        rw [addSecretLoop_step n counter rooms m s e hemp pick s1 hp dx s2
          hdx dy s3 hdy t e1 hgt]
        obtain ⟨c', hge, j1, j2, j3, j4, j5, j6, j8⟩ := ih (counter + 1)
          (rooms ++ [secretRoom (rooms.getD pick dummyRoom) t counter dx dy])
          (mapPush m (rooms.getD pick dummyRoom).id
            (secretConn (rooms.getD pick dummyRoom) counter dx dy)) s3 e1
          (by omega)
          (by
            intro r hr
            rcases List.mem_append.1 hr with hr' | hr'
            · exact Nat.lt_succ_of_lt (h1 r hr')
            · obtain rfl := List.mem_singleton.1 hr'
              exact Nat.lt_succ_self counter)
          (by
            refine allConns_pred_mapPush _ m _ _ ?_ ?_
            · intro c hc
              exact ⟨Nat.lt_succ_of_lt (h2 c hc).1,
                Nat.lt_succ_of_lt (h2 c hc).2⟩
            · exact ⟨Nat.lt_succ_of_lt hparid, Nat.lt_succ_self counter⟩)
          (by
            refine allConns_pred_mapPush _ m _ _ h3 ?_
            intro _
            exact ⟨rfl, rfl, hparid⟩)
          (by
            intro j hj1 hj2
            rw [countP_allConns_mapPush]
            by_cases hjc : j = counter
            · subst hjc
              have hz : (allConns m).countP
                  (fun c => decide (c.to_room = (⟨j⟩ : RoomId))) = 0 := by
                rw [List.countP_eq_zero]
                intro c hc
                simp only [decide_eq_true_eq]
                intro hct
                have hv := (h2 c hc).2
                rw [hct] at hv
                simp at hv
              rw [hz]
              simp [secretConn]
            · have hj3 : j < counter := by omega
              rw [h4 j hj1 hj3]
              rw [if_neg (by
                simp only [secretConn, decide_eq_true_eq]
                intro hct
                exact hjc (by
                  have hv := congrArg RoomId.val hct
                  simpa using hv.symm))])
          (by
            refine allConns_pred_mapPush _ m _ _ h5 ?_
            intro _
            simpa [secretConn] using hparid)
          (by
            intro r hr
            rcases List.mem_append.1 hr with hr' | hr'
            · exact h6 r hr'
            · obtain rfl := List.mem_singleton.1 hr'
              refine iff_of_true h7 ?_
              simp [secretRoom, htt])
          (connsAt_key_mapPush m _ _ h8 rfl)
        exact ⟨c', by omega, j1, j2, j3, j4, j5, j6, j8⟩

/-- A duplicate-free list contained in another list is no longer. -/
theorem nodup_subset_length {vis uni : List RoomId} (h1 : vis.Nodup)
    (h2 : ∀ v ∈ vis, v ∈ uni) : vis.length ≤ uni.length := by
  calc vis.length = vis.toFinset.card := (List.toFinset_card_of_nodup h1).symm
    _ ≤ uni.toFinset.card := Finset.card_le_card
        (fun x hx => List.mem_toFinset.2 (h2 x (List.mem_toFinset.1 hx)))
    _ ≤ uni.length := List.toFinset_card_le uni

/-- The enqueue fold of one BFS step appends the same block of fresh
nodes to the queue and the visited list: the block is duplicate-free,
consists of unvisited successors, and together with the old visited list
covers all successors. -/
theorem foldExpand (succs : List RoomId) : ∀ (qs vis : List RoomId),
    ∃ news : List RoomId,
      succs.foldl (fun (p : List RoomId × List RoomId) w =>
          if w ∈ p.2 then p else (p.1 ++ [w], p.2 ++ [w])) (qs, vis) =
        (qs ++ news, vis ++ news) ∧
      news.Nodup ∧ (∀ w ∈ news, w ∈ succs ∧ w ∉ vis) ∧
      (∀ w ∈ succs, w ∈ vis ∨ w ∈ news) := by
  induction succs with
  | nil =>
      intro qs vis
      exact ⟨[], by simp, List.nodup_nil, by simp, by simp⟩
  | cons w ws ih =>
      intro qs vis
      by_cases hw : w ∈ vis
      · obtain ⟨news, h1, h2, h3, h4⟩ := ih qs vis
        refine ⟨news, ?_, h2, ?_, ?_⟩
        · simpa [List.foldl_cons, hw] using h1
        · exact fun x hx => ⟨List.mem_cons_of_mem _ (h3 x hx).1, (h3 x hx).2⟩
        · intro x hx
          rcases List.mem_cons.1 hx with rfl | hx'
          · exact Or.inl hw
          · exact h4 x hx'
      · obtain ⟨news, h1, h2, h3, h4⟩ := ih (qs ++ [w]) (vis ++ [w])
        refine ⟨w :: news, ?_, ?_, ?_, ?_⟩
        · rw [List.foldl_cons]
          simp only [hw, if_false]
          rw [h1, List.append_assoc, List.append_assoc,
            List.singleton_append]
        · refine List.Pairwise.cons ?_ h2
          intro x hx hxw
          exact (h3 x hx).2 (hxw ▸ List.mem_append.2
            (Or.inr (List.mem_singleton.2 rfl)))
        · intro x hx
          rcases List.mem_cons.1 hx with rfl | hx'
          · exact ⟨List.mem_cons_self _ _, hw⟩
          · refine ⟨List.mem_cons_of_mem _ (h3 x hx').1, ?_⟩
            intro hxv
            exact (h3 x hx').2 (List.mem_append.2 (Or.inl hxv))
        · intro x hx
          rcases List.mem_cons.1 hx with rfl | hx'
          · exact Or.inr (List.mem_cons_self _ _)
          · rcases h4 x hx' with hv | hn
            · rcases List.mem_append.1 hv with hv' | hv'
              · exact Or.inl hv'
              · exact Or.inr (by
                  obtain rfl := List.mem_singleton.1 hv'
                  exact List.mem_cons_self _ _)
            · exact Or.inr (List.mem_cons_of_mem _ hn)

/-- Soundness of the fuel-indexed BFS of `has_path_between`: if it
returns `true` from a queue of reachable nodes, the target is reachable. -/
theorem hasPathAux_sound (succ : RoomId → List RoomId) (s0 tgt : RoomId) :
    ∀ (fuel : Nat) (qs vis : List RoomId),
      (∀ q ∈ qs, Relation.ReflTransGen (fun a b => b ∈ succ a) s0 q) →
      hasPathAux succ tgt fuel qs vis = true →
      Relation.ReflTransGen (fun a b => b ∈ succ a) s0 tgt := by
  intro fuel
  induction fuel with
  | zero =>
      intro qs vis _ h
      simp [hasPathAux] at h
  | succ n ih =>
      intro qs vis hq h
      rcases qs with _ | ⟨q, qs'⟩
      · simp [hasPathAux] at h
      · by_cases hqt : q = tgt
        · subst hqt
          exact hq q (List.mem_cons_self _ _)
        · rw [show hasPathAux succ tgt (n + 1) (q :: qs') vis =
            hasPathAux succ tgt n (bfsStep succ q qs' vis).1
              (bfsStep succ q qs' vis).2 from by
              simp only [hasPathAux, hqt, if_false]] at h
          obtain ⟨news, hst, _, h3, _⟩ := foldExpand (succ q) qs' vis
          have hb : bfsStep succ q qs' vis = (qs' ++ news, vis ++ news) := hst
          rw [hb] at h
          refine ih (qs' ++ news) (vis ++ news) ?_ h
          intro x hx
          rcases List.mem_append.1 hx with hx' | hx'
          · exact hq x (List.mem_cons_of_mem _ hx')
          · exact Relation.ReflTransGen.tail
              (hq q (List.mem_cons_self _ _)) (h3 x hx').1

/-- A visited set closed under successors absorbs every reachable node. -/
theorem reachClosed (succ : RoomId → List RoomId) (vis : List RoomId)
    (hc : ∀ v ∈ vis, ∀ w ∈ succ v, w ∈ vis) {u t : RoomId} (hu : u ∈ vis)
    (h : Relation.ReflTransGen (fun a b => b ∈ succ a) u t) : t ∈ vis := by
  induction h with
  | refl => exact hu
  | tail _ h2 ihr => exact hc _ ihr _ h2

/-- Completeness of the fuel-indexed BFS: with enough fuel (one unit per
queue entry plus one per not-yet-visited node of a finite universe closed
under successors), a reachable target is found. -/
theorem hasPathAux_complete (succ : RoomId → List RoomId)
    (uni : List RoomId)
    (hclosed : ∀ a : RoomId, ∀ b ∈ succ a, b ∈ uni) (tgt : RoomId) :
    ∀ (fuel : Nat) (qs vis : List RoomId),
      (∀ q ∈ qs, q ∈ vis) → vis.Nodup → (∀ v ∈ vis, v ∈ uni) →
      qs.length + (uni.length - vis.length) ≤ fuel →
      (∀ v ∈ vis, v ∉ qs → ∀ w ∈ succ v, w ∈ vis) →
      (tgt ∈ vis → tgt ∈ qs) →
      (∃ u ∈ vis, Relation.ReflTransGen (fun a b => b ∈ succ a) u tgt) →
      hasPathAux succ tgt fuel qs vis = true := by
  intro fuel
  induction fuel with
  | zero =>
      intro qs vis hqv hnd hsub hfuel hfront htgt hreach
      exfalso
      rcases qs with _ | ⟨q, qs'⟩
      · have hcl : ∀ v ∈ vis, ∀ w ∈ succ v, w ∈ vis :=
          fun v hv => hfront v hv (by simp)
        obtain ⟨u, hu, hr⟩ := hreach
        exact absurd (htgt (reachClosed succ vis hcl hu hr)) (by simp)
      · have hv : vis.length ≤ uni.length := nodup_subset_length hnd hsub
        simp only [List.length_cons] at hfuel
        omega
  | succ n ih =>
      intro qs vis hqv hnd hsub hfuel hfront htgt hreach
      rcases qs with _ | ⟨q, qs'⟩
      · exfalso
        have hcl : ∀ v ∈ vis, ∀ w ∈ succ v, w ∈ vis :=
          fun v hv => hfront v hv (by simp)
        obtain ⟨u, hu, hr⟩ := hreach
        exact absurd (htgt (reachClosed succ vis hcl hu hr)) (by simp)
      · by_cases hqt : q = tgt
        · subst hqt
          simp [hasPathAux]
        · rw [show hasPathAux succ tgt (n + 1) (q :: qs') vis =
            hasPathAux succ tgt n (bfsStep succ q qs' vis).1
              (bfsStep succ q qs' vis).2 from by
              simp only [hasPathAux, hqt, if_false]]
          obtain ⟨news, hst, hnd2, h3, h4⟩ := foldExpand (succ q) qs' vis
          have hb : bfsStep succ q qs' vis = (qs' ++ news, vis ++ news) := hst
          rw [hb]
          have hdisj : List.Disjoint vis news :=
            fun a ha hn => (h3 a hn).2 ha
          have hnd' : (vis ++ news).Nodup :=
            List.nodup_append.2 ⟨hnd, hnd2, hdisj⟩
          have hsub' : ∀ v ∈ vis ++ news, v ∈ uni := by
            intro v hv
            rcases List.mem_append.1 hv with hv' | hv'
            · exact hsub v hv'
            · exact hclosed q v (h3 v hv').1
          have hlenle : (vis ++ news).length ≤ uni.length :=
            nodup_subset_length hnd' hsub'
          refine ih (qs' ++ news) (vis ++ news) ?_ hnd' hsub' ?_ ?_ ?_ ?_
          · intro x hx
            rcases List.mem_append.1 hx with hx' | hx'
            · exact List.mem_append.2 (Or.inl (hqv x
                (List.mem_cons_of_mem _ hx')))
            · exact List.mem_append.2 (Or.inr hx')
          · simp only [List.length_append] at hlenle ⊢
            simp only [List.length_cons] at hfuel
            omega
          · intro v hv hnq w hw
            rcases List.mem_append.1 hv with hv' | hv'
            · by_cases hvq : v = q
              · subst hvq
                rcases h4 w hw with hw' | hw'
                · exact List.mem_append.2 (Or.inl hw')
                · exact List.mem_append.2 (Or.inr hw')
              · have hvnq : v ∉ q :: qs' := by
                  intro hvm
                  rcases List.mem_cons.1 hvm with h' | h'
                  · exact hvq h'
                  · exact hnq (List.mem_append.2 (Or.inl h'))
                exact List.mem_append.2
                  (Or.inl (hfront v hv' hvnq w hw))
            · exact absurd (List.mem_append.2 (Or.inr hv')) hnq
          · intro hτ
            rcases List.mem_append.1 hτ with hτ' | hτ'
            · rcases List.mem_cons.1 (htgt hτ') with h' | h'
              · exact absurd h'.symm hqt
              · exact List.mem_append.2 (Or.inl h')
            · exact List.mem_append.2 (Or.inr hτ')
          · obtain ⟨u, hu, hr⟩ := hreach
            exact ⟨u, List.mem_append.2 (Or.inl hu), hr⟩

/-- Every stored connection's target occurs in `allTargets`. -/
theorem connsAt_to_mem_allTargets (m : List (RoomId × List RoomConnection)) :
    ∀ (k : RoomId), ∀ c ∈ connsAt m k, c.to_room ∈ allTargets m := by
  induction m with
  | nil => intro k c hc; simp [connsAt, mapGet] at hc
  | cons q rest ih =>
      obtain ⟨k', v⟩ := q
      intro k c hc
      by_cases hk : k' = k
      · have hcv : c ∈ v := by simpa [connsAt, mapGet, hk] using hc
        simp only [allTargets, List.flatMap_cons]
        exact List.mem_append.2 (Or.inl (List.mem_map.2 ⟨c, hcv, rfl⟩))
      · have hcr : c ∈ connsAt rest k := by
          simpa [connsAt, mapGet, hk] using hc
        simp only [allTargets, List.flatMap_cons]
        exact List.mem_append.2 (Or.inr (ih k c hcr))

/-- `has_path_between` decides reachability along stored connections
(locked ones included): its BFS is sound and, thanks to the `bfsFuel`
bound, complete. -/
theorem hasPathBetween_iff (L : DungeonLayout) (st tgt : RoomId) :
    hasPathBetween L st tgt = true ↔ Reaches L.connections st tgt := by
  constructor
  · intro h
    exact hasPathAux_sound (succAll L.connections) st tgt (bfsFuel L)
      [st] [st]
      (fun q hq => by
        obtain rfl := List.mem_singleton.1 hq
        exact Relation.ReflTransGen.refl) h
  · intro h
    have hstm : st ∈ (st :: allTargets L.connections).dedup :=
      List.mem_dedup.2 (List.mem_cons_self _ _)
    have hUpos : 0 < (st :: allTargets L.connections).dedup.length :=
      List.length_pos_of_mem hstm
    have hUle : (st :: allTargets L.connections).dedup.length ≤ bfsFuel L := by
      have h2 := (List.dedup_sublist (st :: allTargets L.connections)).length_le
      simpa [bfsFuel, Nat.add_comm] using h2
    refine hasPathAux_complete (succAll L.connections)
      ((st :: allTargets L.connections).dedup) ?_ tgt (bfsFuel L)
      [st] [st] ?_ ?_ ?_ ?_ ?_ ?_ ?_
    · intro a b hb
      refine List.mem_dedup.2 (List.mem_cons_of_mem _ ?_)
      obtain ⟨c, hc, rfl⟩ := List.mem_map.1 hb
      exact connsAt_to_mem_allTargets L.connections a c hc
    · intro q hq; exact hq
    · simp
    · intro v hv
      obtain rfl := List.mem_singleton.1 hv
      exact hstm
    · simp only [List.length_cons, List.length_nil]
      omega
    · intro v hv hnq
      exact absurd hv hnq
    · intro h'; exact h'
    · exact ⟨st, List.mem_singleton.2 rfl, h⟩

/-- `validate_critical_path` spelt out as reachability of every boss room
from the start room, locked connections included. -/
theorem validateCriticalPath_iff (L : DungeonLayout) :
    validateCriticalPath L = true ↔
      ∀ b ∈ L.boss_rooms, Reaches L.connections L.start_room b := by
  rw [validateCriticalPath, List.all_eq_true]
  constructor <;> intro h b hb
  · exact (hasPathBetween_iff L L.start_room b).1 (h b hb)
  · exact (hasPathBetween_iff L L.start_room b).2 (h b hb)

/-- Room-list invariants of a full `generate_dungeon` run, for any config
and seeds: every off-critical-path room (branch or secret) carries the
biome of its own depth, and the room list starts with the depth-0 Desert
start room. -/
theorem dungeon_rooms_inv (config : DungeonGenerationConfig)
    (cossin : Nat → Nat → ℚ × ℚ) (s e : Rng) :
    (∀ p ∈ (generateDungeon config cossin s e).rooms,
      p.2.is_critical_path = false →
        p.2.template.biome = determineBiomeForFloor p.2.depth) ∧
    ((generateDungeon config cossin s e).rooms.head?).map
      (fun p => (p.2.depth, p.2.template.biome)) =
      some (0, BiomeType.Desert) := by
  obtain ⟨⟨t, htc, htb, hhead⟩, hcp⟩ := generateCriticalPath_inv config s e
  rcases h1 : generateCriticalPath config s e with ⟨cp, s1, e1⟩
  rw [h1] at hhead hcp
  dsimp only at hhead hcp
  obtain ⟨g1, g2⟩ := genBranchRooms_inv cossin config.max_branches_per_room
    cp cp.length s1 e1
  rcases h2 : genBranchRooms cossin config.max_branches_per_room cp
    cp.length s1 e1 with ⟨BR, cnt2, s2, e2⟩
  rw [h2] at g1 g2
  dsimp only at g1 g2
  have hab : addBranchingRooms config cossin cp s1 e1 = (cp ++ BR, s2, e2) := by
    rw [addBranchingRooms_eq, h2]
  rcases h3 : generateConnections (cp ++ BR) config s2 with ⟨m0, s3⟩
  obtain ⟨suf, hsuf1, hsuf2⟩ := addSecretLoop_suffix
    ⌊((cp ++ BR).length : ℚ) * config.secret_room_chance⌋₊
    (cp ++ BR).length (cp ++ BR) m0 s3 e2
  rcases h4 : addSecretLoop
    ⌊((cp ++ BR).length : ℚ) * config.secret_room_chance⌋₊
    (cp ++ BR).length (cp ++ BR) m0 s3 e2 with ⟨fin, mfin, sx, ex⟩
  rw [h4] at hsuf1
  dsimp only at hsuf1
  have hgen : generateDungeon config cossin s e =
      validateAndFixLayout fin mfin config := by
    simp only [generateDungeon, h1, hab, h3, addSecretRooms_eq, h4]
  rw [hgen]
  constructor
  · intro p hp hflag
    simp only [validateAndFixLayout] at hp
    obtain ⟨r, hr, rfl⟩ := List.mem_map.1 hp
    dsimp only at hflag ⊢
    rw [hsuf1] at hr
    rcases List.mem_append.1 hr with hr' | hr'
    · rcases List.mem_append.1 hr' with hr'' | hr''
      · rw [(hcp r hr'').1] at hflag
        cases hflag
      · exact (g2 r hr'').2.2.2.1
    · exact (hsuf2 r hr').2.2
  · simp only [validateAndFixLayout]
    rcases cp with _ | ⟨c0, cpt⟩
    · cases hhead
    · have hc0 : c0 = startRoom t := by
        have := hhead
        simp only [List.head?_cons, Option.some.injEq] at this
        exact this
      subst hc0
      rw [hsuf1]
      simp [startRoom, htb]

/-- Secret-room invariants of a full `generate_dungeon` run, for any
config and seeds: there is an id threshold `N` (the pre-secret room
count) such that the rooms with id `≥ N` are exactly the Secret-typed
ones, every connection into that id range is locked by
`find_secret_switch` and points id-upward, each such id has exactly one
inbound connection, connections leaving the range point id-upward, and
every stored connection sits under its `from_room` key. -/
theorem dungeon_secret_inv (config : DungeonGenerationConfig)
    (cossin : Nat → Nat → ℚ × ℚ) (s e : Rng) :
    ∃ N c' : Nat,
      (∀ p ∈ (generateDungeon config cossin s e).rooms,
        (N ≤ p.2.id.val ↔ p.2.template.room_type = RoomType.Secret) ∧
        p.2.id.val < c') ∧
      (∀ c ∈ allConns (generateDungeon config cossin s e).connections,
        N ≤ c.to_room.val →
        c.is_locked = true ∧ c.unlock_condition = some "find_secret_switch" ∧
        c.from_room.val < c.to_room.val) ∧
      (∀ j : Nat, N ≤ j → j < c' →
        (allConns (generateDungeon config cossin s e).connections).countP
          (fun c => decide (c.to_room = ⟨j⟩)) = 1) ∧
      (∀ c ∈ allConns (generateDungeon config cossin s e).connections,
        N ≤ c.from_room.val → c.from_room.val < c.to_room.val) ∧
      (∀ k, ∀ c ∈ connsAt (generateDungeon config cossin s e).connections k,
        c.from_room = k) := by
  obtain ⟨_, hcp⟩ := generateCriticalPath_inv config s e
  rcases h1 : generateCriticalPath config s e with ⟨cp, s1, e1⟩
  rw [h1] at hcp
  dsimp only at hcp
  obtain ⟨g1, g2⟩ := genBranchRooms_inv cossin config.max_branches_per_room
    cp cp.length s1 e1
  rcases h2 : genBranchRooms cossin config.max_branches_per_room cp
    cp.length s1 e1 with ⟨BR, cnt2, s2, e2⟩
  rw [h2] at g1 g2
  dsimp only at g1 g2
  have hab : addBranchingRooms config cossin cp s1 e1 = (cp ++ BR, s2, e2) := by
    rw [addBranchingRooms_eq, h2]
  have hallid : ∀ r ∈ cp ++ BR, r.id.val < (cp ++ BR).length := by
    intro r hr
    rw [List.length_append]
    rcases List.mem_append.1 hr with hr' | hr'
    · have := (hcp r hr').2.2
      omega
    · have := (g2 r hr').2.2.2.2.2.2
      omega
  have hallsec : ∀ r ∈ cp ++ BR,
      r.template.room_type ≠ RoomType.Secret := by
    intro r hr
    rcases List.mem_append.1 hr with hr' | hr'
    · exact (hcp r hr').2.1
    · exact (g2 r hr').2.2.1
  obtain ⟨gc1, gc2⟩ := generateConnections_inv (cp ++ BR) config s2
    (cp ++ BR).length hallid
  rcases h3 : generateConnections (cp ++ BR) config s2 with ⟨m0, s3⟩
  rw [h3] at gc1 gc2
  dsimp only at gc1 gc2
  obtain ⟨c', hge, j1, j2, j3, j4, j5, j6, j8⟩ := addSecretLoop_inv
    (cp ++ BR).length
    ⌊((cp ++ BR).length : ℚ) * config.secret_room_chance⌋₊
    (cp ++ BR).length (cp ++ BR) m0 s3 e2
    (Nat.le_refl _)
    hallid
    gc1
    (by
      intro c hc hN
      have := (gc1 c hc).2
      omega)
    (by
      intro j hj1 hj2
      omega)
    (by
      intro c hc hN
      have := (gc1 c hc).1
      omega)
    (by
      intro r hr
      refine iff_of_false ?_ (hallsec r hr)
      have := hallid r hr
      omega)
    gc2
  rcases h4 : addSecretLoop
    ⌊((cp ++ BR).length : ℚ) * config.secret_room_chance⌋₊
    (cp ++ BR).length (cp ++ BR) m0 s3 e2 with ⟨fin, mfin, sx, ex⟩
  rw [h4] at j1 j2 j3 j4 j5 j6 j8
  dsimp only at j1 j2 j3 j4 j5 j6 j8
  have hgen : generateDungeon config cossin s e =
      validateAndFixLayout fin mfin config := by
    simp only [generateDungeon, h1, hab, h3, addSecretRooms_eq, h4]
  rw [hgen]
  refine ⟨(cp ++ BR).length, c', ?_, j3, j4, j5, j8⟩
  intro p hp
  simp only [validateAndFixLayout] at hp
  obtain ⟨r, hr, rfl⟩ := List.mem_map.1 hp
  exact ⟨j6 r hr, j1 r hr⟩

/-- The chain segment of `generate_connections` over the 12/4 critical
path, with backtracking: the doubly-linked chain map. -/
theorem chainMap_rooms12 (t0 t1 t2 t3 t4 t5 t6 t7 t8 : RoomTemplate) :
    addChainConnections true
      ((rooms12 t0 t1 t2 t3 t4 t5 t6 t7 t8).zip
        (rooms12 t0 t1 t2 t3 t4 t5 t6 t7 t8).tail) [] = chainConns12 := by
  have h := generateConnections_rooms12 cfgScenario rfl t0 t1 t2 t3 t4 t5 t6
    t7 t8 (constStream 0)
  simp only [generateConnections, cfgScenario] at h
  rw [show (rooms12 t0 t1 t2 t3 t4 t5 t6 t7 t8).filter
      (fun r => r.is_critical_path) = rooms12 t0 t1 t2 t3 t4 t5 t6 t7 t8
    from by simp [rooms12]] at h
  rw [show (rooms12 t0 t1 t2 t3 t4 t5 t6 t7 t8).filter
      (fun r => !r.is_critical_path) = [] from by simp [rooms12]] at h
  have h2 := congrArg Prod.fst h
  simpa [addBranchConnections] using h2

/-- `generate_connections` over the 12/4 critical path extended by branch
rooms: whatever the branch draws do, the chain edges survive in the
resulting map. -/
theorem generateConnections_rooms12_br (cfg : DungeonGenerationConfig)
    (hb : cfg.backtrack_connections = true)
    (t0 t1 t2 t3 t4 t5 t6 t7 t8 : RoomTemplate) (BR : List DungeonRoom)
    (hbr : ∀ r ∈ BR, r.is_critical_path = false) (S : Rng) :
    ∀ k, ∀ c ∈ connsAt chainConns12 k,
      c ∈ connsAt
        (generateConnections (rooms12 t0 t1 t2 t3 t4 t5 t6 t7 t8 ++ BR)
          cfg S).1 k := by
  intro k c hc
  have hfc : (rooms12 t0 t1 t2 t3 t4 t5 t6 t7 t8 ++ BR).filter
      (fun r => r.is_critical_path) = rooms12 t0 t1 t2 t3 t4 t5 t6 t7 t8 := by
    rw [List.filter_append]
    have hfb : BR.filter (fun r => r.is_critical_path) = [] := by
      rw [List.filter_eq_nil_iff]
      intro r hr
      simp [hbr r hr]
    rw [hfb]
    simp [rooms12]
  simp only [generateConnections, hfc, hb, chainMap_rooms12]
  exact addBranchConnections_mono _ _ _ _ k c hc

/-- The default-config (`total_rooms 12`, `boss_room_frequency 4`,
branches and secrets enabled) dungeon, for every seed: the connection map
extends the 12/4 chain, the start room is id 0, the boss rooms are ids 1
and 2, and the Boss-typed rooms sit at depths 4 and 8 only. -/
theorem defaultDungeon_spec (cossin : Nat → Nat → ℚ × ℚ) (s e : Rng) :
    ∃ m : List (RoomId × List RoomConnection),
      (generateDungeon DungeonGenerationConfig.default cossin s e).connections
        = m ∧
      (∀ k, ∀ c ∈ connsAt chainConns12 k, c ∈ connsAt m k) ∧
      (generateDungeon DungeonGenerationConfig.default cossin s e).start_room
        = ⟨0⟩ ∧
      (generateDungeon DungeonGenerationConfig.default cossin s e).boss_rooms
        = [⟨1⟩, ⟨2⟩] ∧
      (((generateDungeon DungeonGenerationConfig.default cossin
          s e).rooms.map Prod.snd).filter
          (fun r => decide (r.template.room_type = RoomType.Boss))).map
        (fun r => r.depth) = [4, 8] := by
  obtain ⟨t0, t1, t2, t3, t4, t5, t6, t7, t8, s', e', hcp, h0, h1, h2, h3,
    h4, h5, h6, h7, h8⟩ := criticalPath_12_4 DungeonGenerationConfig.default
    rfl rfl s e
  obtain ⟨g1, g2⟩ := genBranchRooms_inv cossin
    DungeonGenerationConfig.default.max_branches_per_room
    (rooms12 t0 t1 t2 t3 t4 t5 t6 t7 t8)
    (rooms12 t0 t1 t2 t3 t4 t5 t6 t7 t8).length s' e'
  rcases hbr : genBranchRooms cossin
    DungeonGenerationConfig.default.max_branches_per_room
    (rooms12 t0 t1 t2 t3 t4 t5 t6 t7 t8)
    (rooms12 t0 t1 t2 t3 t4 t5 t6 t7 t8).length s' e' with ⟨BR, cnt2, s2, e2⟩
  rw [hbr] at g1 g2
  dsimp only at g1 g2
  have hab : addBranchingRooms DungeonGenerationConfig.default cossin
      (rooms12 t0 t1 t2 t3 t4 t5 t6 t7 t8) s' e' =
      (rooms12 t0 t1 t2 t3 t4 t5 t6 t7 t8 ++ BR, s2, e2) := by
    rw [addBranchingRooms_eq, hbr]
  have hbrflag : ∀ r ∈ BR, r.is_critical_path = false :=
    fun r hr => (g2 r hr).1
  have hmono1 := generateConnections_rooms12_br
    DungeonGenerationConfig.default rfl t0 t1 t2 t3 t4 t5 t6 t7 t8 BR
    hbrflag s2
  rcases hgc : generateConnections
    (rooms12 t0 t1 t2 t3 t4 t5 t6 t7 t8 ++ BR)
    DungeonGenerationConfig.default s2 with ⟨m1, s3⟩
  rw [hgc] at hmono1
  dsimp only at hmono1
  obtain ⟨suf, hsuf1, hsuf2⟩ := addSecretLoop_suffix
    ⌊(((rooms12 t0 t1 t2 t3 t4 t5 t6 t7 t8 ++ BR).length : ℚ) *
      DungeonGenerationConfig.default.secret_room_chance)⌋₊
    (rooms12 t0 t1 t2 t3 t4 t5 t6 t7 t8 ++ BR).length
    (rooms12 t0 t1 t2 t3 t4 t5 t6 t7 t8 ++ BR) m1 s3 e2
  have hmono2 : ∀ k, ∀ c ∈ connsAt m1 k,
      c ∈ connsAt (addSecretLoop
        ⌊(((rooms12 t0 t1 t2 t3 t4 t5 t6 t7 t8 ++ BR).length : ℚ) *
          DungeonGenerationConfig.default.secret_room_chance)⌋₊
        (rooms12 t0 t1 t2 t3 t4 t5 t6 t7 t8 ++ BR).length
        (rooms12 t0 t1 t2 t3 t4 t5 t6 t7 t8 ++ BR) m1 s3 e2).2.1 k :=
    fun k c hc => addSecretLoop_mono _ _ _ _ _ _ k c hc
  rcases hsl : addSecretLoop
    ⌊(((rooms12 t0 t1 t2 t3 t4 t5 t6 t7 t8 ++ BR).length : ℚ) *
      DungeonGenerationConfig.default.secret_room_chance)⌋₊
    (rooms12 t0 t1 t2 t3 t4 t5 t6 t7 t8 ++ BR).length
    (rooms12 t0 t1 t2 t3 t4 t5 t6 t7 t8 ++ BR) m1 s3 e2
    with ⟨fin, mfin, sx, ex⟩
  rw [hsl] at hsuf1 hmono2
  dsimp only at hsuf1 hmono2
  have hgen : generateDungeon DungeonGenerationConfig.default cossin s e =
      validateAndFixLayout fin mfin DungeonGenerationConfig.default := by
    simp only [generateDungeon, hcp, hab, hgc, addSecretRooms_eq, hsl]
  rw [hgen]
  have hfbr : BR.filter
      (fun r => decide (r.template.room_type = RoomType.Boss)) = [] := by
    rw [List.filter_eq_nil_iff]
    intro r hr
    simp only [decide_eq_true_eq]
    exact (g2 r hr).2.1
  have hfsuf : suf.filter
      (fun r => decide (r.template.room_type = RoomType.Boss)) = [] := by
    rw [List.filter_eq_nil_iff]
    intro r hr
    simp [(hsuf2 r hr).1]
  refine ⟨mfin, rfl, fun k c hc => hmono2 k c (hmono1 k c hc), ?_, ?_, ?_⟩
  · simp only [validateAndFixLayout]
    rw [hsuf1]
    simp [rooms12]
  · simp only [validateAndFixLayout]
    rw [hsuf1]
    simp [rooms12, List.filter_append, hfbr, hfsuf, h0, h1, h2, h3.1, h4.1,
      h5.1, h6.1, h7.1, h8.1]
  · simp only [validateAndFixLayout]
    rw [hsuf1]
    simp [rooms12, List.filter_append, List.map_map, hfbr, hfsuf, h0, h1,
      h2, h3.1, h4.1, h5.1, h6.1, h7.1, h8.1]
    refine ⟨fun a ha => (g2 a ha).2.1, fun a ha => ?_⟩
    rw [(hsuf2 a ha).1]
    decide

/-- C3: refuted as stated (code bug). For the default config
(`total_rooms = 12`, `boss_room_frequency = 4`) and every seed, the
Boss-typed rooms of the generated layout sit at depths 4 and 8 only —
there is no Boss room at depth 12, because
`(0..12).step_by(4).skip(1) = [4, 8]` and the fill loop stops at depth
8, so the claimed depth set `{4, 8, 12}` is wrong. -/
theorem c3_boss_depths_are_4_8 (cossin : Nat → Nat → ℚ × ℚ) (s e : Rng) :
    ((((generateDungeon DungeonGenerationConfig.default cossin
        s e).rooms.map Prod.snd).filter
        (fun r => decide (r.template.room_type = RoomType.Boss))).map
      (fun r => r.depth)) = [4, 8] := by
  obtain ⟨m, _, _, _, _, hd⟩ := defaultDungeon_spec cossin s e
  exact hd

/-- C5: `validate_critical_path` returns true iff every room id in
`boss_rooms` is reachable from `start_room` along stored connections
regardless of their `is_locked` flag; and for the default config and
every seed the generated layout passes it (both boss rooms are on the
critical-path chain). -/
theorem c5_validate_critical_path_iff_reachable :
    (∀ L : DungeonLayout, validateCriticalPath L = true ↔
      ∀ b ∈ L.boss_rooms, Reaches L.connections L.start_room b) ∧
    (∀ (cossin : Nat → Nat → ℚ × ℚ) (s e : Rng),
      validateCriticalPath
        (generateDungeon DungeonGenerationConfig.default cossin s e) =
        true) := by
  refine ⟨validateCriticalPath_iff, ?_⟩
  intro cossin s e
  obtain ⟨m, hm, hmono, hstart, hboss, _⟩ := defaultDungeon_spec cossin s e
  rw [validateCriticalPath_iff, hstart, hboss, hm]
  have hstep : ∀ a b : Nat, ∀ c : RoomConnection,
      c ∈ connsAt chainConns12 ⟨a⟩ → c.to_room = ⟨b⟩ →
      stepRel m ⟨a⟩ ⟨b⟩ := by
    intro a b c hc hct
    show (⟨b⟩ : RoomId) ∈ succAll m ⟨a⟩
    exact List.mem_map.2 ⟨c, hmono _ c hc, hct⟩
  have h03 := hstep 0 3 (chainF 0 3) (by decide) rfl
  have h34 := hstep 3 4 (chainF 3 4) (by decide) rfl
  have h45 := hstep 4 5 (chainF 4 5) (by decide) rfl
  have h51 := hstep 5 1 (chainF 5 1) (by decide) rfl
  have h16 := hstep 1 6 (chainF 1 6) (by decide) rfl
  have h67 := hstep 6 7 (chainF 6 7) (by decide) rfl
  have h78 := hstep 7 8 (chainF 7 8) (by decide) rfl
  have h82 := hstep 8 2 (chainF 8 2) (by decide) rfl
  have r1 : Reaches m ⟨0⟩ ⟨1⟩ :=
    Relation.ReflTransGen.tail (Relation.ReflTransGen.tail
      (Relation.ReflTransGen.tail (Relation.ReflTransGen.tail
        Relation.ReflTransGen.refl h03) h34) h45) h51
  have r2 : Reaches m ⟨0⟩ ⟨2⟩ :=
    Relation.ReflTransGen.tail (Relation.ReflTransGen.tail
      (Relation.ReflTransGen.tail (Relation.ReflTransGen.tail
        r1 h16) h67) h78) h82
  intro b hb
  rcases List.mem_cons.1 hb with rfl | hb
  · exact r1
  rcases List.mem_cons.1 hb with rfl | hb
  · exact r2
  · simp at hb

/-- C5 witness: the concretely generated default-config layout passes
`validate_critical_path`. -/
theorem c5_default_config_witness :
    validateCriticalPath (generateDungeon DungeonGenerationConfig.default
      csUnit (constStream 0) (constStream 0)) = true :=
  c5_validate_critical_path_iff_reachable.2 csUnit (constStream 0)
    (constStream 0)

/-- C7: in every generated layout (any config with a positive boss
frequency, any seeds), every connection targeting a Secret-typed room is
locked with unlock condition `find_secret_switch`; each secret room has
exactly one inbound connection; and no connection leaving the secret room
returns to the source of an inbound connection (no reverse edge). -/
theorem c7_secret_room_isolation (config : DungeonGenerationConfig)
    (cossin : Nat → Nat → ℚ × ℚ) (s e : Rng)
    (_hf : 0 < config.boss_room_frequency) :
    ∀ p ∈ (generateDungeon config cossin s e).rooms,
      p.2.template.room_type = RoomType.Secret →
        (∀ c ∈ allConns (generateDungeon config cossin s e).connections,
          c.to_room = p.2.id →
            c.is_locked = true ∧
            c.unlock_condition = some "find_secret_switch") ∧
        (allConns (generateDungeon config cossin s e).connections).countP
          (fun c => decide (c.to_room = p.2.id)) = 1 ∧
        (∀ c ∈ allConns (generateDungeon config cossin s e).connections,
          c.to_room = p.2.id →
            ∀ c' ∈ connsAt (generateDungeon config cossin s e).connections
              p.2.id, c'.to_room ≠ c.from_room) := by
  obtain ⟨N, c', hrooms, hto, hcount, hfrom, hkeys⟩ :=
    dungeon_secret_inv config cossin s e
  intro p hp hsec
  obtain ⟨hiff, hlt⟩ := hrooms p hp
  have hNle : N ≤ p.2.id.val := hiff.2 hsec
  refine ⟨?_, ?_, ?_⟩
  · intro c hc hct
    have h2 := hto c hc (by rw [hct]; exact hNle)
    exact ⟨h2.1, h2.2.1⟩
  · exact hcount p.2.id.val hNle hlt
  · intro c hc hct c' hc'
    have hkey := hkeys p.2.id c' hc'
    have h5 := hfrom c' (connsAt_mem_allConns _ _ _ hc')
      (by rw [hkey]; exact hNle)
    have h3 := hto c hc (by rw [hct]; exact hNle)
    intro heq
    have hv1 : p.2.id.val < c'.to_room.val := by
      rw [← hkey]; exact h5
    have hv2 : c.from_room.val < p.2.id.val := by
      have h6 := h3.2.2
      rw [hct] at h6
      exact h6
    have hv3 := congrArg RoomId.val heq
    omega

/-- C7 witness: in the concretely generated default-config layout, the
one connection into the secret room (the second stored connection) is
locked with unlock condition `find_secret_switch`. -/
theorem c7_secret_room_isolation_witness :
    ((allConns (generateDungeon DungeonGenerationConfig.default csUnit
        (constStream 0) (constStream 0)).connections).getD 1
      (chainF 0 0)).is_locked = true ∧
    ((allConns (generateDungeon DungeonGenerationConfig.default csUnit
        (constStream 0) (constStream 0)).connections).getD 1
      (chainF 0 0)).unlock_condition = some "find_secret_switch" := by
  have h := c7_secret_room_isolation DungeonGenerationConfig.default csUnit
    (constStream 0) (constStream 0) (by decide)
    ((generateDungeon DungeonGenerationConfig.default csUnit (constStream 0)
      (constStream 0)).rooms.getD 9 (⟨0⟩, dummyRoom)) (by decide) (by decide)
  have h2 := h.1 ((allConns (generateDungeon DungeonGenerationConfig.default
    csUnit (constStream 0) (constStream 0)).connections).getD 1
    (chainF 0 0)) (by decide) (by decide)
  exact ⟨h2.1, h2.2⟩

/-- C10: `determine_biome_for_floor` returns Underworld for floor 0 (the
catch-all arm, since the Desert arm starts at floor 1), so in every
generated layout each branch or secret room (the off-critical-path rooms)
attached at depth 0 carries an Underworld-biome template, while the
dungeon entrance at the head of the room list is a depth-0 Desert room. -/
theorem c10_floor_zero_biome_underworld :
    determineBiomeForFloor 0 = BiomeType.Underworld ∧
    ∀ (config : DungeonGenerationConfig) (cossin : Nat → Nat → ℚ × ℚ)
      (s e : Rng), 0 < config.boss_room_frequency →
      (∀ p ∈ (generateDungeon config cossin s e).rooms,
        p.2.is_critical_path = false → p.2.depth = 0 →
          p.2.template.biome = BiomeType.Underworld) ∧
      ((generateDungeon config cossin s e).rooms.head?).map
        (fun p => (p.2.depth, p.2.template.biome)) =
        some (0, BiomeType.Desert) := by
  refine ⟨by decide, ?_⟩
  intro config cossin s e _
  obtain ⟨hbio, hhead⟩ := dungeon_rooms_inv config cossin s e
  refine ⟨?_, hhead⟩
  intro p hp hflag hdep
  have h2 := hbio p hp hflag
  rw [hdep] at h2
  rw [h2]
  decide

/-- C10 witness: in the concretely generated default-config layout, the
secret room (index 9) sits at depth 0 and carries an Underworld-biome
template. -/
theorem c10_floor_zero_biome_witness :
    ((generateDungeon DungeonGenerationConfig.default csUnit (constStream 0)
      (constStream 0)).rooms.getD 9 (⟨0⟩, dummyRoom)).2.template.biome =
      BiomeType.Underworld :=
  (c10_floor_zero_biome_underworld.2 DungeonGenerationConfig.default csUnit
    (constStream 0) (constStream 0) (by decide)).1
    ((generateDungeon DungeonGenerationConfig.default csUnit (constStream 0)
      (constStream 0)).rooms.getD 9 (⟨0⟩, dummyRoom)) (by decide) (by decide)
    (by decide)
